import Mathlib

/-!
Verification of the janet-world streaming engine against its specification.

This file gives a shallow embedding, in Lean 4, of the parts of the repository
that the verified properties talk about:

* the chunked heightmap terrain (`src/terrain.rs`),
* the streaming engine (`src/service.rs`),
* the client mirror of the Godot plugin (`clients/godot/src/cache.rs`, `node.rs`),
* the NATS-over-WebSocket frame builder and frame reader of the browser client
  (`clients/wasm/src/nats_ws.rs`).

Modelling conventions:

* `f32` values are modelled as exact rationals (`ℚ`), extended where the code can
  meet IEEE special values with an explicit `FV` type carrying `nan` / `±inf`.
  Floating-point rounding is not modelled; every proved statement is about the
  exact-arithmetic idealisation of the code.
* `u64` / `usize` are `ℕ`; `i32` is `ℤ` together with the saturating casts the
  code performs (`as i32`, `as usize` after `.floor()`).
* Rust `HashMap` / `HashSet` state is modelled with association lists and
  duplicate-free lists; the properties proved are membership-based, hence
  independent of iteration order.
* Fallible calls return `Except String`; external collaborators (the physics
  backend, the noise function) are parameters, exactly as the spec declares them
  out of scope (spec §1: the noise function matters only through its contract
  `f(seed, x, y) → height`; the physics backend only through register /
  unregister / transform read-back, whose outcomes we quantify over).
-/

namespace JanetWorld

/-! ## Extended `f32` values

`FV` models an `f32` as either an exact rational or one of the special values
`nan`, `+inf`, `-inf`.  Only the operations the embedded code performs are
defined. -/

inductive FV where
  | nan : FV
  | inf : FV
  | ninf : FV
  | fin : ℚ → FV
deriving DecidableEq

namespace FV

/-- Subtraction of a finite value, as in `x - chunk.world_origin_x`. -/
def subQ : FV → ℚ → FV
  | nan, _ => nan
  | inf, _ => inf
  | ninf, _ => ninf
  | fin q, a => fin (q - a)

/-- Division by a finite value, as in `x / chunk_size`; division by zero follows
IEEE-754 (`q/0 = ±inf` for `q ≠ 0`, `0/0 = nan`, with the zero taken positive as
produced by the embedded code). -/
def divQ : FV → ℚ → FV
  | nan, _ => nan
  | inf, d => if 0 ≤ d then inf else ninf
  | ninf, d => if 0 ≤ d then ninf else inf
  | fin q, d =>
    if d = 0 then (if q = 0 then nan else if 0 < q then inf else ninf)
    else fin (q / d)

/-- Rust `f32::clamp(lo, hi)` (callers guarantee `lo ≤ hi`): `nan` propagates,
infinities clamp to the matching bound. -/
def clampF (lo hi : ℚ) : FV → FV
  | nan => nan
  | inf => fin hi
  | ninf => fin lo
  | fin q => fin (max lo (min hi q))

def i32min : ℤ := -(2 ^ 31)

def i32max : ℤ := 2 ^ 31 - 1

def usizeMax : ℕ := 2 ^ 64 - 1

/-- Rust `v.floor() as i32`: floor, then the saturating float-to-int cast
(`nan ↦ 0`, out-of-range saturates). -/
def floorCastI32 : FV → ℤ
  | nan => 0
  | inf => i32max
  | ninf => i32min
  | fin q => max i32min (min i32max ⌊q⌋)

/-- Rust `v.floor() as usize`: floor, then the saturating float-to-int cast
(`nan ↦ 0`, negatives to `0`, overflow saturates). -/
def floorCastUSize : FV → ℕ
  | nan => 0
  | inf => usizeMax
  | ninf => 0
  | fin q => min (Int.toNat ⌊q⌋) usizeMax

end FV

/-! ## Heightmap terrain (`src/terrain.rs`)

`HeightmapTerrain` holds the generation parameters; the interior-mutable chunk
cache (`RwLock<HashMap<(i32, i32, u8), Arc<HeightChunk>>>`) is threaded
explicitly as a `ChunkCache` value.  The noise placeholder
(`sin`/`cos` of the world point, seed-mixed) is out of scope per spec §1 and
enters as an abstract pure function `noise : seed → x → y → height`. -/

structure HeightChunk where
  heights : List ℚ
  resolution : ℕ
  world_origin_x : ℚ
  world_origin_y : ℚ
  cell_size : ℚ
deriving DecidableEq

structure HeightmapTerrain where
  seed : ℕ
  chunk_size : ℚ
  base_resolution : ℕ
deriving DecidableEq

abbrev Noise := ℕ → ℚ → ℚ → ℚ

abbrev ChunkKey := ℤ × ℤ × ℕ

abbrev ChunkCache := List (ChunkKey × HeightChunk)

/-- Association-list lookup, modelling `HashMap` reads. -/
def alookup {α β : Type} [DecidableEq α] : List (α × β) → α → Option β
  | [], _ => none
  | (k, v) :: rest, key => if key = k then some v else alookup rest key

/-- The resolution `generate_chunk` uses at a given LOD:
`(base_resolution >> lod).max(4)`. -/
def lod_resolution (t : HeightmapTerrain) (lod : ℕ) : ℕ :=
  max (t.base_resolution >>> lod) 4

/-- The row-major sample list pushed by the nested generation loop
(`for row { for col { heights.push(f(row, col)) } }`). -/
def sample_grid (f : ℕ → ℕ → ℚ) (res : ℕ) : List ℚ :=
  (List.range res).flatMap fun row => (List.range res).map fun col => f row col

/-- `HeightmapTerrain::generate_chunk`: `resolution = (base_resolution >> lod).max(4)`,
`cell_size = chunk_size / resolution`, and `resolution²` noise samples pushed in
row-major order. -/
def generate_chunk (noise : Noise) (t : HeightmapTerrain) (cx cy : ℤ) (lod : ℕ) :
    HeightChunk :=
  let resolution := lod_resolution t lod
  let cell_size := t.chunk_size / (resolution : ℚ)
  let world_origin_x := (cx : ℚ) * t.chunk_size
  let world_origin_y := (cy : ℚ) * t.chunk_size
  { heights :=
      sample_grid
        (fun row col =>
          noise t.seed (world_origin_x + (col : ℚ) * cell_size)
            (world_origin_y + (row : ℚ) * cell_size))
        resolution
    resolution := resolution
    world_origin_x := world_origin_x
    world_origin_y := world_origin_y
    cell_size := cell_size }

/-- `HeightmapTerrain::get_or_generate_chunk`: cache hit returns the stored
chunk, cache miss generates, inserts and returns it. -/
def get_or_generate_chunk (noise : Noise) (t : HeightmapTerrain) (cache : ChunkCache)
    (cx cy : ℤ) (lod : ℕ) : HeightChunk × ChunkCache :=
  match alookup cache (cx, cy, lod) with
  | some ch => (ch, cache)
  | none =>
    let ch := generate_chunk noise t cx cy lod
    (ch, ((cx, cy, lod), ch) :: cache)

/-- `HeightmapTerrain::chunk_coord`: floor-division of world coords by
`chunk_size`, with the `as i32` saturating cast. -/
def chunk_coord (t : HeightmapTerrain) (x y : FV) : ℤ × ℤ :=
  ((x.divQ t.chunk_size).floorCastI32, (y.divQ t.chunk_size).floorCastI32)

/-- `HeightmapTerrain::lod_for_distance`. -/
def lod_for_distance (d : ℚ) : ℕ :=
  if d < 100 then 0 else if d < 300 then 1 else 2

/-- The clamped grid indices `(ix, iy)` computed inside `height_at`.
`chunk.resolution - 1` is `ℕ` truncated subtraction; every chunk the code ever
stores has `resolution ≥ 4`, where this agrees with the Rust `usize` value. -/
def grid_index (chunk : HeightChunk) (x y : FV) : ℕ × ℕ :=
  let local_x := x.subQ chunk.world_origin_x
  let local_y := y.subQ chunk.world_origin_y
  let gx := (local_x.divQ chunk.cell_size).clampF 0 ((chunk.resolution - 1 : ℕ) : ℚ)
  let gy := (local_y.divQ chunk.cell_size).clampF 0 ((chunk.resolution - 1 : ℕ) : ℚ)
  (gx.floorCastUSize, gy.floorCastUSize)

/-- `<HeightmapTerrain as TerrainSource>::height_at`: locate the LOD-0 chunk,
materialise it if absent, and return the sample at the clamped grid cell.
The list access `heights[iy * resolution + ix]` is modelled with `getD`; the
bounds theorem for claim C9 shows the index is always in range, so the default
is never taken. -/
def height_at (noise : Noise) (t : HeightmapTerrain) (cache : ChunkCache) (x y : FV) :
    ℚ × ChunkCache :=
  let cx := (chunk_coord t x y).1
  let cy := (chunk_coord t x y).2
  let r := get_or_generate_chunk noise t cache cx cy 0
  let chunk := r.1
  let ix := (grid_index chunk x y).1
  let iy := (grid_index chunk x y).2
  (chunk.heights.getD (iy * chunk.resolution + ix) 0, r.2)

/-- Collider shapes of the physics backend (the external `janet_operations`
crate).  Modelled from the spec: the backend currently exposes no 3D
heightfield variant — see the `TODO(Phase 1)` comment in `terrain.rs` and the
shape test in `terrain_tests.rs` ("Until ... Heightfield is available we expect
a Box covering the chunk") — so the box is the only shape terrain code can
produce. -/
inductive ColliderShape where
  | box (width height : ℚ) : ColliderShape
deriving DecidableEq

/-- `HeightmapTerrain::heightfield_collider_for_chunk`: fetch (or generate) the
chunk and return the flat `Box` covering the chunk footprint, as the code does
while the backend lacks a heightfield variant. -/
def heightfield_collider_for_chunk (noise : Noise) (t : HeightmapTerrain)
    (cache : ChunkCache) (cx cy : ℤ) (lod : ℕ) : ColliderShape × ChunkCache :=
  let r := get_or_generate_chunk noise t cache cx cy lod
  (ColliderShape.box ((r.1.resolution : ℚ) * r.1.cell_size)
    ((r.1.resolution : ℚ) * r.1.cell_size), r.2)

/-- A cache is well-formed when every stored chunk is the one `generate_chunk`
produces for its key — exactly the caches reachable through the terrain API,
whose only writer is `get_or_generate_chunk`. -/
def CacheWF (noise : Noise) (t : HeightmapTerrain) (cache : ChunkCache) : Prop :=
  ∀ k ch, alookup cache k = some ch → ch = generate_chunk noise t k.1 k.2.1 k.2.2

/-! ### Terrain lemmas -/

theorem get_or_generate_chunk_lookup (noise : Noise) (t : HeightmapTerrain)
    (cache : ChunkCache) (cx cy : ℤ) (lod : ℕ) :
    alookup (get_or_generate_chunk noise t cache cx cy lod).2 (cx, cy, lod) =
      some (get_or_generate_chunk noise t cache cx cy lod).1 := by
  unfold get_or_generate_chunk
  cases h : alookup cache (cx, cy, lod) with
  | some ch => simpa using h
  | none => simp [alookup]

theorem get_or_generate_chunk_of_wf (noise : Noise) (t : HeightmapTerrain)
    (cache : ChunkCache) (cx cy : ℤ) (lod : ℕ) (hwf : CacheWF noise t cache) :
    (get_or_generate_chunk noise t cache cx cy lod).1 = generate_chunk noise t cx cy lod := by
  unfold get_or_generate_chunk
  cases h : alookup cache (cx, cy, lod) with
  | some ch => simpa using hwf _ _ h
  | none => simp

theorem generate_chunk_resolution (noise : Noise) (t : HeightmapTerrain)
    (cx cy : ℤ) (lod : ℕ) :
    (generate_chunk noise t cx cy lod).resolution = lod_resolution t lod := rfl

theorem lod_resolution_ge_four (t : HeightmapTerrain) (lod : ℕ) :
    4 ≤ lod_resolution t lod := le_max_right _ _

theorem flatMap_range_const_length (g : ℕ → List ℚ) (n : ℕ)
    (h : ∀ r, (g r).length = n) :
    ∀ m, ((List.range m).flatMap g).length = m * n := by
  intro m
  induction m with
  | zero => simp
  | succ k ih =>
    rw [List.range_succ, List.flatMap_append]
    simp [ih, h, Nat.succ_mul]

theorem sample_grid_length (f : ℕ → ℕ → ℚ) (res : ℕ) :
    (sample_grid f res).length = res * res :=
  flatMap_range_const_length (fun row => (List.range res).map fun col => f row col) res
    (fun r => by rw [List.length_map, List.length_range]) res

theorem generate_chunk_heights_length (noise : Noise) (t : HeightmapTerrain)
    (cx cy : ℤ) (lod : ℕ) :
    (generate_chunk noise t cx cy lod).heights.length =
      lod_resolution t lod * lod_resolution t lod := by
  unfold generate_chunk
  exact sample_grid_length _ _

theorem flatMap_range_const_getD (g : ℕ → List ℚ) (n : ℕ)
    (h : ∀ r, (g r).length = n) (d : ℚ) :
    ∀ m r c, r < m → c < n →
      ((List.range m).flatMap g).getD (r * n + c) d = (g r).getD c d := by
  intro m
  induction m with
  | zero => omega
  | succ k ih =>
    intro r c hr hc
    rw [List.range_succ, List.flatMap_append]
    rcases Nat.lt_succ_iff_lt_or_eq.mp hr with h1 | h1
    · rw [List.getD_append]
      · exact ih r c h1 hc
      · rw [flatMap_range_const_length g n h k]
        calc r * n + c < r * n + n := by omega
          _ = (r + 1) * n := by ring
          _ ≤ k * n := Nat.mul_le_mul_right n h1
    · subst h1
      rw [List.getD_append_right]
      · rw [flatMap_range_const_length g n h r]
        have hsub : r * n + c - r * n = c := by omega
        rw [hsub, List.flatMap_cons, List.flatMap_nil, List.append_nil]
      · rw [flatMap_range_const_length g n h r]
        omega

theorem sample_grid_getD (f : ℕ → ℕ → ℚ) (res r c : ℕ) (hr : r < res) (hc : c < res)
    (d : ℚ) : (sample_grid f res).getD (r * res + c) d = f r c := by
  unfold sample_grid
  rw [flatMap_range_const_getD (fun row => (List.range res).map fun col => f row col) res
    (fun row => by rw [List.length_map, List.length_range]) d res r c hr hc]
  rw [List.getD_eq_getElem _ _ (by simpa using hc)]
  simp

/-! ### Claim C6: `generate_chunk` shape and LOD monotonicity -/

/-- Claim C6.  For every `(cx, cy, lod)`, the chunk produced on a cache miss has
`resolution = max(4, base_resolution >> lod)`, `cell_size = chunk_size / resolution`,
a heights array of exactly `resolution²` samples in row-major order — the entry at
index `row·resolution + col` holds the noise sample at world point
`(world_origin_x + col·cell_size, world_origin_y + row·cell_size)` — and for every
`lod ≥ 1` the resolution at `lod` is at most the resolution at `lod - 1` and always
at least `4`. -/
theorem generate_chunk_spec (noise : Noise) (t : HeightmapTerrain) (cx cy : ℤ)
    (lod : ℕ) :
    (generate_chunk noise t cx cy lod).resolution =
        max 4 (t.base_resolution >>> lod) ∧
    (generate_chunk noise t cx cy lod).cell_size =
        t.chunk_size / ((generate_chunk noise t cx cy lod).resolution : ℚ) ∧
    (generate_chunk noise t cx cy lod).heights.length =
        (generate_chunk noise t cx cy lod).resolution ^ 2 ∧
    (∀ row col, row < (generate_chunk noise t cx cy lod).resolution →
      col < (generate_chunk noise t cx cy lod).resolution →
      (generate_chunk noise t cx cy lod).heights.getD
          (row * (generate_chunk noise t cx cy lod).resolution + col) 0 =
        noise t.seed
          ((generate_chunk noise t cx cy lod).world_origin_x +
            (col : ℚ) * (generate_chunk noise t cx cy lod).cell_size)
          ((generate_chunk noise t cx cy lod).world_origin_y +
            (row : ℚ) * (generate_chunk noise t cx cy lod).cell_size)) ∧
    (∀ l, 1 ≤ l → lod_resolution t l ≤ lod_resolution t (l - 1) ∧
      4 ≤ lod_resolution t l) := by
  refine ⟨?_, rfl, generate_chunk_heights_length noise t cx cy lod |>.trans (sq _).symm,
    ?_, ?_⟩
  · show lod_resolution t lod = _
    exact max_comm _ _
  · intro row col hrow hcol
    exact sample_grid_getD _ _ row col hrow hcol 0
  · intro l hl
    refine ⟨?_, le_max_right _ _⟩
    unfold lod_resolution
    have h2 : t.base_resolution >>> l ≤ t.base_resolution >>> (l - 1) := by
      have : l = (l - 1) + 1 := by omega
      rw [this, Nat.shiftRight_succ]
      exact Nat.div_le_self _ 2 |>.trans (le_refl _)
    exact max_le_max h2 (le_refl 4)

/-- Claim C6, witness: a concrete instantiation (seed 7, chunk size 64, base
resolution 16, LOD 1) with the row-major indexing and LOD monotonicity clauses
discharged at `row = 1`, `col = 2` and `l = 1`. -/
theorem generate_chunk_spec_witness :
    ((generate_chunk (fun s x y => (s : ℚ) + x + y) ⟨7, 64, 16⟩ 0 0 1).heights.getD
        (1 * (generate_chunk (fun s x y => (s : ℚ) + x + y) ⟨7, 64, 16⟩ 0 0 1).resolution
          + 2) 0 =
      (fun s x y => ((s : ℕ) : ℚ) + x + y) 7
        ((generate_chunk (fun s x y => (s : ℚ) + x + y) ⟨7, 64, 16⟩ 0 0 1).world_origin_x +
          (2 : ℚ) * (generate_chunk (fun s x y => (s : ℚ) + x + y) ⟨7, 64, 16⟩ 0 0 1).cell_size)
        ((generate_chunk (fun s x y => (s : ℚ) + x + y) ⟨7, 64, 16⟩ 0 0 1).world_origin_y +
          (1 : ℚ) * (generate_chunk (fun s x y => (s : ℚ) + x + y) ⟨7, 64, 16⟩ 0 0 1).cell_size)) ∧
    lod_resolution ⟨7, 64, 16⟩ 1 ≤ lod_resolution ⟨7, 64, 16⟩ 0 := by
  refine ⟨?_, ?_⟩
  · exact (generate_chunk_spec (fun s x y => (s : ℚ) + x + y) ⟨7, 64, 16⟩ 0 0 1).2.2.2.1
      1 2 (by decide) (by decide)
  · exact ((generate_chunk_spec (fun s x y => (s : ℚ) + x + y) ⟨7, 64, 16⟩ 0 0 1).2.2.2.2
      1 (by decide)).1

/-! ### Claim C5: `height_at` determinism across the cache -/

theorem get_or_generate_chunk_hit (noise : Noise) (t : HeightmapTerrain)
    (cache : ChunkCache) (cx cy : ℤ) (lod : ℕ) (ch : HeightChunk)
    (hl : alookup cache (cx, cy, lod) = some ch) :
    get_or_generate_chunk noise t cache cx cy lod = (ch, cache) := by
  unfold get_or_generate_chunk
  rw [hl]

/-- Claim C5.  For every seed, coordinate pair and starting cache, two successive
`height_at(x, y)` calls on the same terrain return identical values: the first
call may insert the containing chunk into the cache, and the second call reads
back the same stored chunk. -/
theorem height_at_deterministic (noise : Noise) (t : HeightmapTerrain)
    (cache : ChunkCache) (x y : FV) :
    (height_at noise t ((height_at noise t cache x y).2) x y).1 =
      (height_at noise t cache x y).1 := by
  simp only [height_at]
  rw [get_or_generate_chunk_hit noise t
    (get_or_generate_chunk noise t cache (chunk_coord t x y).1 (chunk_coord t x y).2 0).2
    (chunk_coord t x y).1 (chunk_coord t x y).2 0
    (get_or_generate_chunk noise t cache (chunk_coord t x y).1 (chunk_coord t x y).2 0).1
    (get_or_generate_chunk_lookup noise t cache (chunk_coord t x y).1
      (chunk_coord t x y).2 0)]

/-! ### Claim C9: `height_at` never indexes out of bounds -/

theorem floorCastUSize_clamp_le (v : FV) (n : ℕ) :
    ((v.clampF 0 (n : ℚ)).floorCastUSize) ≤ n := by
  cases v with
  | nan => simp [FV.clampF, FV.floorCastUSize]
  | inf =>
    simp only [FV.clampF, FV.floorCastUSize]
    have : ⌊((n : ℕ) : ℚ)⌋ = (n : ℤ) := Int.floor_natCast n
    rw [this]
    simp [min_le_left]
  | ninf =>
    simp [FV.clampF, FV.floorCastUSize]
  | fin q =>
    simp only [FV.clampF, FV.floorCastUSize]
    have hle : max 0 (min (n : ℚ) q) ≤ (n : ℚ) :=
      max_le (by positivity) (min_le_left _ _)
    have hfloor : ⌊max 0 (min (n : ℚ) q)⌋ ≤ (n : ℤ) := by
      calc ⌊max 0 (min (n : ℚ) q)⌋ ≤ ⌊((n : ℕ) : ℚ)⌋ := Int.floor_le_floor hle
        _ = (n : ℤ) := Int.floor_natCast n
    calc min (Int.toNat ⌊max 0 (min (n : ℚ) q)⌋) FV.usizeMax
        ≤ Int.toNat ⌊max 0 (min (n : ℚ) q)⌋ := min_le_left _ _
      _ ≤ n := by omega

/-- Claim C9.  For every input `(x, y)` — including the IEEE specials — and any
cache reachable through the terrain API, the clamped grid indices both lie in
`[0, resolution-1]`, the chunk's heights array has length `resolution²` with
`resolution ≥ 4`, and the access `heights[iy·resolution + ix]` is in bounds (so
the `getD` in `height_at` never takes its default). -/
theorem height_at_index_in_bounds (noise : Noise) (t : HeightmapTerrain)
    (cache : ChunkCache) (x y : FV) (hwf : CacheWF noise t cache) :
    (grid_index ((get_or_generate_chunk noise t cache (chunk_coord t x y).1
        (chunk_coord t x y).2 0).1) x y).1 ≤
      ((get_or_generate_chunk noise t cache (chunk_coord t x y).1
        (chunk_coord t x y).2 0).1).resolution - 1 ∧
    (grid_index ((get_or_generate_chunk noise t cache (chunk_coord t x y).1
        (chunk_coord t x y).2 0).1) x y).2 ≤
      ((get_or_generate_chunk noise t cache (chunk_coord t x y).1
        (chunk_coord t x y).2 0).1).resolution - 1 ∧
    4 ≤ ((get_or_generate_chunk noise t cache (chunk_coord t x y).1
        (chunk_coord t x y).2 0).1).resolution ∧
    ((get_or_generate_chunk noise t cache (chunk_coord t x y).1
        (chunk_coord t x y).2 0).1).heights.length =
      ((get_or_generate_chunk noise t cache (chunk_coord t x y).1
        (chunk_coord t x y).2 0).1).resolution ^ 2 ∧
    (grid_index ((get_or_generate_chunk noise t cache (chunk_coord t x y).1
        (chunk_coord t x y).2 0).1) x y).2 *
        ((get_or_generate_chunk noise t cache (chunk_coord t x y).1
          (chunk_coord t x y).2 0).1).resolution +
      (grid_index ((get_or_generate_chunk noise t cache (chunk_coord t x y).1
        (chunk_coord t x y).2 0).1) x y).1 <
      ((get_or_generate_chunk noise t cache (chunk_coord t x y).1
        (chunk_coord t x y).2 0).1).heights.length := by
  rw [get_or_generate_chunk_of_wf noise t cache _ _ 0 hwf]
  set ch := generate_chunk noise t (chunk_coord t x y).1 (chunk_coord t x y).2 0 with hch
  have hres : ch.resolution = lod_resolution t 0 := rfl
  have hres4 : 4 ≤ ch.resolution := by rw [hres]; exact lod_resolution_ge_four t 0
  have hlen : ch.heights.length = ch.resolution ^ 2 := by
    rw [hch]
    exact (generate_chunk_heights_length noise t _ _ 0).trans (sq _).symm
  have hix : (grid_index ch x y).1 ≤ ch.resolution - 1 := floorCastUSize_clamp_le _ _
  have hiy : (grid_index ch x y).2 ≤ ch.resolution - 1 := floorCastUSize_clamp_le _ _
  refine ⟨hix, hiy, hres4, hlen, ?_⟩
  rw [hlen, sq]
  obtain ⟨b, hb⟩ : ∃ b, ch.resolution = b + 1 := ⟨ch.resolution - 1, by omega⟩
  rw [hb] at hix hiy ⊢
  simp only [Nat.add_sub_cancel] at hix hiy
  have hexp : (b + 1) * (b + 1) = b * (b + 1) + b + 1 := by ring
  rw [hexp]
  have := add_le_add (Nat.mul_le_mul_right (b + 1) hiy) hix
  omega

/-- Claim C9, witness: concrete terrain `(seed 42, chunk 64, base resolution 16)`,
empty cache, and the input `(nan, 5.5)` exercising a special value. -/
theorem height_at_index_in_bounds_witness :
    CacheWF (fun _ _ _ => 0) ⟨42, 64, 16⟩ [] ∧
    (grid_index ((get_or_generate_chunk (fun _ _ _ => 0) ⟨42, 64, 16⟩ []
        (chunk_coord ⟨42, 64, 16⟩ FV.nan (FV.fin (11/2))).1
        (chunk_coord ⟨42, 64, 16⟩ FV.nan (FV.fin (11/2))).2 0).1) FV.nan
          (FV.fin (11/2))).2 *
        ((get_or_generate_chunk (fun _ _ _ => 0) ⟨42, 64, 16⟩ []
          (chunk_coord ⟨42, 64, 16⟩ FV.nan (FV.fin (11/2))).1
          (chunk_coord ⟨42, 64, 16⟩ FV.nan (FV.fin (11/2))).2 0).1).resolution +
      (grid_index ((get_or_generate_chunk (fun _ _ _ => 0) ⟨42, 64, 16⟩ []
        (chunk_coord ⟨42, 64, 16⟩ FV.nan (FV.fin (11/2))).1
        (chunk_coord ⟨42, 64, 16⟩ FV.nan (FV.fin (11/2))).2 0).1) FV.nan
          (FV.fin (11/2))).1 <
      ((get_or_generate_chunk (fun _ _ _ => 0) ⟨42, 64, 16⟩ []
        (chunk_coord ⟨42, 64, 16⟩ FV.nan (FV.fin (11/2))).1
        (chunk_coord ⟨42, 64, 16⟩ FV.nan (FV.fin (11/2))).2 0).1).heights.length := by
  have hwf : CacheWF (fun _ _ _ => 0) ⟨42, 64, 16⟩ [] := by
    intro k ch h
    simp [alookup] at h
  exact ⟨hwf, (height_at_index_in_bounds (fun _ _ _ => 0) ⟨42, 64, 16⟩ [] FV.nan
    (FV.fin (11/2)) hwf).2.2.2.2⟩

/-! ### Claim C3: terrain collider shape -/

/-- Claim C3.  The physics backend currently provides no 3D heightfield variant
(modelled in `ColliderShape` per the `TODO` in `terrain.rs` and the shape test),
so the heightfield clause of the claim is vacuous and
`heightfield_collider_for_chunk` takes the documented degraded path for every
`(cx, cy, lod)`: a `Box` with `width = height = resolution·cell_size`, which is
exactly the chunk footprint `chunk_size`. -/
theorem heightfield_collider_for_chunk_box (noise : Noise) (t : HeightmapTerrain)
    (cache : ChunkCache) (cx cy : ℤ) (lod : ℕ) (hwf : CacheWF noise t cache) :
    (heightfield_collider_for_chunk noise t cache cx cy lod).1 =
      ColliderShape.box
        ((lod_resolution t lod : ℚ) * (t.chunk_size / (lod_resolution t lod : ℚ)))
        ((lod_resolution t lod : ℚ) * (t.chunk_size / (lod_resolution t lod : ℚ))) ∧
    (lod_resolution t lod : ℚ) * (t.chunk_size / (lod_resolution t lod : ℚ)) =
      t.chunk_size := by
  constructor
  · simp only [heightfield_collider_for_chunk]
    rw [get_or_generate_chunk_of_wf noise t cache cx cy lod hwf]
    rfl
  · have hne : ((lod_resolution t lod : ℕ) : ℚ) ≠ 0 := by
      have := lod_resolution_ge_four t lod
      positivity
    rw [mul_comm, div_mul_cancel₀ _ hne]

/-- Claim C3, witness: concrete terrain `(seed 42, chunk 64, base resolution 16)`
with an empty cache at chunk `(0, 0)`, LOD 0. -/
theorem heightfield_collider_for_chunk_box_witness :
    CacheWF (fun _ _ _ => 0) ⟨42, 64, 16⟩ [] ∧
    (heightfield_collider_for_chunk (fun _ _ _ => 0) ⟨42, 64, 16⟩ [] 0 0 0).1 =
      ColliderShape.box
        ((lod_resolution ⟨42, 64, 16⟩ 0 : ℚ) *
          ((64 : ℚ) / (lod_resolution ⟨42, 64, 16⟩ 0 : ℚ)))
        ((lod_resolution ⟨42, 64, 16⟩ 0 : ℚ) *
          ((64 : ℚ) / (lod_resolution ⟨42, 64, 16⟩ 0 : ℚ))) := by
  have hwf : CacheWF (fun _ _ _ => 0) ⟨42, 64, 16⟩ [] := by
    intro k ch h
    simp [alookup] at h
  exact ⟨hwf, (heightfield_collider_for_chunk_box (fun _ _ _ => 0) ⟨42, 64, 16⟩ []
    0 0 0 hwf).1⟩

/-! ## Client mirror (`clients/godot/src/cache.rs`, `clients/godot/src/node.rs`)

The mirror's three `HashMap`s are association lists keyed as in the source; the
Godot signals emitted by `JanetWorldClient::apply_event` are collected into a
list.  The bridge handle is irrelevant to the cached state and the signals, so
it is not modelled. -/

structure CachedChunk where
  chunk_id : String
  cx : ℤ
  cy : ℤ
  seed : ℕ
  lod : ℕ
  chunk_size : ℚ
deriving DecidableEq

structure CachedStructure where
  structure_id : String
  type_id : String
  x : ℚ
  y : ℚ
  z : ℚ
  rotation_y : ℚ
deriving DecidableEq

structure CachedEntity where
  entity_id : String
  archetype : String
  x : ℚ
  y : ℚ
  z : ℚ
  rotation_y : ℚ
  vx : ℚ
  vy : ℚ
  vz : ℚ
  frame : ℕ
  dt : ℚ
deriving DecidableEq

/-- `CachedEntity::extrapolated`: linear dead-reckoning. -/
def CachedEntity.extrapolated (e : CachedEntity) (elapsed : ℚ) : ℚ × ℚ × ℚ :=
  (e.x + e.vx * elapsed, e.y + e.vy * elapsed, e.z + e.vz * elapsed)

structure ClientWorldCache where
  chunks : List (String × CachedChunk)
  structures : List (String × CachedStructure)
  entities : List (String × CachedEntity)
  last_frame : ℕ
  in_snapshot : Bool
deriving DecidableEq

/-- `HashMap::insert` (insert or overwrite). -/
def aupsert {α β : Type} [DecidableEq α] (l : List (α × β)) (k : α) (v : β) :
    List (α × β) :=
  match l with
  | [] => [(k, v)]
  | (k', v') :: rest => if k = k' then (k, v) :: rest else (k', v') :: aupsert rest k v

/-- `HashMap::remove` (drop the association, if any). -/
def aremove {α β : Type} [DecidableEq α] (l : List (α × β)) (k : α) : List (α × β) :=
  l.filter fun p => p.1 ≠ k

namespace ClientWorldCache

def new : ClientWorldCache := ⟨[], [], [], 0, false⟩

def activate_chunk (c : ClientWorldCache) (chunk_id : String) (cx cy : ℤ)
    (seed lod : ℕ) (chunk_size : ℚ) : ClientWorldCache :=
  { c with chunks := aupsert c.chunks chunk_id ⟨chunk_id, cx, cy, seed, lod, chunk_size⟩ }

def deactivate_chunk (c : ClientWorldCache) (chunk_id : String) : ClientWorldCache :=
  { c with chunks := aremove c.chunks chunk_id }

def spawn_structure (c : ClientWorldCache) (structure_id type_id : String)
    (x y z rotation_y : ℚ) : ClientWorldCache :=
  { c with structures :=
      aupsert c.structures structure_id ⟨structure_id, type_id, x, y, z, rotation_y⟩ }

def remove_structure (c : ClientWorldCache) (structure_id : String) : ClientWorldCache :=
  { c with structures := aremove c.structures structure_id }

def spawn_entity (c : ClientWorldCache) (entity_id archetype : String)
    (x y z rotation_y : ℚ) : ClientWorldCache :=
  { c with entities :=
      aupsert c.entities entity_id ⟨entity_id, archetype, x, y, z, rotation_y, 0, 0, 0, 0, 0⟩ }

def remove_entity (c : ClientWorldCache) (entity_id : String) : ClientWorldCache :=
  { c with entities := aremove c.entities entity_id }

/-- `ClientWorldCache::update_entity_transform`: mutate through `get_mut`; a
missing key leaves the map untouched. -/
def update_entity_transform (c : ClientWorldCache) (entity_id : String)
    (x y z rotation_y vx vy vz : ℚ) (frame : ℕ) (dt : ℚ) : ClientWorldCache :=
  match alookup c.entities entity_id with
  | none => c
  | some e =>
    let e' := { e with x := x, y := y, z := z, rotation_y := rotation_y,
                       vx := vx, vy := vy, vz := vz, frame := frame, dt := dt }
    { c with entities := aupsert c.entities entity_id e' }

/-- `ClientWorldCache::clear`: drop all three maps, reset `last_frame` and
`in_snapshot`. -/
def clear (_c : ClientWorldCache) : ClientWorldCache := ⟨[], [], [], 0, false⟩

end ClientWorldCache

/-- Semantic events delivered from the bridge (`clients/godot/src/events.rs`). -/
inductive WorldEvent where
  | connected (session participant_id : String) (frame : ℕ)
  | disconnected (reason : String)
  | chunkActivated (chunk_id : String) (cx cy : ℤ) (seed lod : ℕ) (chunk_size : ℚ)
  | chunkDeactivated (chunk_id : String)
  | structureSpawned (structure_id type_id : String) (x y z rotation_y : ℚ)
  | structureRemoved (structure_id : String)
  | entitySpawned (entity_id archetype : String) (x y z rotation_y : ℚ)
  | entityRemoved (entity_id : String)
  | entityTransform (entity_id : String) (x y z rotation_y vx vy vz : ℚ)
      (frame : ℕ) (dt : ℚ)
  | snapshotBegin (frame : ℕ)
  | snapshotEnd
deriving DecidableEq

/-- The Godot signals `JanetWorldClient` can emit, in emission order. -/
inductive Signal where
  | connection_state_changed (state : String)
  | chunk_activated (chunk_id : String) (cx cy : ℤ) (seed lod : ℕ) (chunk_size : ℚ)
  | chunk_deactivated (chunk_id : String)
  | structure_spawned (structure_id type_id : String) (x y z rotation_y : ℚ)
  | structure_removed (structure_id : String)
  | entity_spawned (entity_id archetype : String) (x y z rotation_y : ℚ)
  | entity_removed (entity_id : String)
  | entity_transform (entity_id : String) (x y z rotation_y vx vy vz : ℚ)
      (frame : ℕ) (dt : ℚ)
  | snapshot_begin (frame : ℕ)
  | snapshot_end
deriving DecidableEq

/-- `JanetWorldClient::apply_event`: apply one `WorldEvent` to the cache and
collect the signals emitted, in order. -/
def apply_event (c : ClientWorldCache) : WorldEvent → ClientWorldCache × List Signal
  | .connected _ _ _ => (c, [.connection_state_changed "active"])
  | .disconnected _ => (c.clear, [.connection_state_changed "disconnected"])
  | .chunkActivated chunk_id cx cy seed lod chunk_size =>
    let c' := c.activate_chunk chunk_id cx cy seed lod chunk_size
    (c', if c'.in_snapshot then []
      else [.chunk_activated chunk_id cx cy seed lod chunk_size])
  | .chunkDeactivated chunk_id =>
    let c' := c.deactivate_chunk chunk_id
    (c', if c'.in_snapshot then [] else [.chunk_deactivated chunk_id])
  | .structureSpawned structure_id type_id x y z rotation_y =>
    let c' := c.spawn_structure structure_id type_id x y z rotation_y
    (c', if c'.in_snapshot then []
      else [.structure_spawned structure_id type_id x y z rotation_y])
  | .structureRemoved structure_id =>
    let c' := c.remove_structure structure_id
    (c', if c'.in_snapshot then [] else [.structure_removed structure_id])
  | .entitySpawned entity_id archetype x y z rotation_y =>
    let c' := c.spawn_entity entity_id archetype x y z rotation_y
    (c', if c'.in_snapshot then []
      else [.entity_spawned entity_id archetype x y z rotation_y])
  | .entityRemoved entity_id =>
    let c' := c.remove_entity entity_id
    (c', if c'.in_snapshot then [] else [.entity_removed entity_id])
  | .entityTransform entity_id x y z rotation_y vx vy vz frame dt =>
    let c' := c.update_entity_transform entity_id x y z rotation_y vx vy vz frame dt
    let c'' := { c' with last_frame := max c'.last_frame frame }
    (c'', [.entity_transform entity_id x y z rotation_y vx vy vz frame dt])
  | .snapshotBegin frame =>
    let c' := { c with in_snapshot := true }
    let c'' := c'.clear
    (c'', [.snapshot_begin frame])
  | .snapshotEnd =>
    let c' := { c with in_snapshot := false }
    (c', .snapshot_end ::
      (c'.chunks.map fun p =>
        Signal.chunk_activated p.2.chunk_id p.2.cx p.2.cy p.2.seed p.2.lod p.2.chunk_size) ++
      (c'.structures.map fun p =>
        Signal.structure_spawned p.2.structure_id p.2.type_id p.2.x p.2.y p.2.z
          p.2.rotation_y) ++
      (c'.entities.map fun p =>
        Signal.entity_spawned p.2.entity_id p.2.archetype p.2.x p.2.y p.2.z
          p.2.rotation_y))

/-- `JanetWorldClient::extrapolate_entity`: dead-reckon a cached entity, or
return the zero vector for an unknown id. -/
def extrapolate_entity (c : ClientWorldCache) (entity_id : String) (elapsed : ℚ) :
    ℚ × ℚ × ℚ :=
  match alookup c.entities entity_id with
  | some e => e.extrapolated elapsed
  | none => (0, 0, 0)

/-! ### Claim C2: snapshot hydration suppresses per-event signals — refuted -/

/-- Claim C2 is violated by the code: `apply_event` on `SnapshotBegin` sets
`in_snapshot = true` and then calls `cache.clear()`, which resets
`in_snapshot` to `false` (`cache.rs` line 242) — contradicting both the claim
and the field's own doc comment ("Set to true while processing a snapshot to
suppress per-event signals").  Concretely: after `SnapshotBegin{frame=7}`, the
flag is `false` and a following `ChunkActivated` emits its per-event
`chunk_activated` signal instead of being suppressed. -/
theorem snapshot_begin_clears_in_snapshot :
    (apply_event ClientWorldCache.new (.snapshotBegin 7)).1.in_snapshot = false ∧
    (apply_event (apply_event ClientWorldCache.new (.snapshotBegin 7)).1
        (.chunkActivated "0:0" 0 0 42 0 10)).2 =
      [Signal.chunk_activated "0:0" 0 0 42 0 10] := by
  exact ⟨rfl, rfl⟩

/-! ### Claim C8: dead-reckoning -/

/-- Claim C8.  For a cached entity, `extrapolate_entity(id, elapsed)` returns
`position + velocity · elapsed` componentwise — in particular at `elapsed = 0`
it returns the last authoritative position — and for an unknown id it returns
the zero vector. -/
theorem extrapolate_entity_spec (c : ClientWorldCache) (entity_id : String)
    (elapsed : ℚ) (e : CachedEntity) :
    (alookup c.entities entity_id = some e →
      extrapolate_entity c entity_id elapsed =
        (e.x + e.vx * elapsed, e.y + e.vy * elapsed, e.z + e.vz * elapsed) ∧
      extrapolate_entity c entity_id 0 = (e.x, e.y, e.z)) ∧
    (alookup c.entities entity_id = none →
      extrapolate_entity c entity_id elapsed = (0, 0, 0)) := by
  constructor
  · intro h
    unfold extrapolate_entity
    rw [h]
    unfold CachedEntity.extrapolated
    exact ⟨rfl, by simp⟩
  · intro h
    unfold extrapolate_entity
    rw [h]

/-- Claim C8, witness: a single cached entity `"bob"` at `(1, 2, 3)` with
velocity `(4, 5, 6)`, extrapolated by `2` seconds, and an unknown id. -/
theorem extrapolate_entity_spec_witness :
    (alookup (ClientWorldCache.mk []
        [] [("bob", ⟨"bob", "participant", 1, 2, 3, 0, 4, 5, 6, 0, 0⟩)] 0 false).entities
        "bob" = some ⟨"bob", "participant", 1, 2, 3, 0, 4, 5, 6, 0, 0⟩) ∧
    extrapolate_entity (ClientWorldCache.mk []
        [] [("bob", ⟨"bob", "participant", 1, 2, 3, 0, 4, 5, 6, 0, 0⟩)] 0 false)
      "bob" 2 = (1 + 4 * 2, 2 + 5 * 2, 3 + 6 * 2) ∧
    extrapolate_entity (ClientWorldCache.mk []
        [] [("bob", ⟨"bob", "participant", 1, 2, 3, 0, 4, 5, 6, 0, 0⟩)] 0 false)
      "nobody" 2 = (0, 0, 0) := by
  have hsome : alookup (ClientWorldCache.mk []
      [] [("bob", ⟨"bob", "participant", 1, 2, 3, 0, 4, 5, 6, 0, 0⟩)] 0 false).entities
      "bob" = some ⟨"bob", "participant", 1, 2, 3, 0, 4, 5, 6, 0, 0⟩ := by rfl
  have hnone : alookup (ClientWorldCache.mk []
      [] [("bob", ⟨"bob", "participant", 1, 2, 3, 0, 4, 5, 6, 0, 0⟩)] 0 false).entities
      "nobody" = none := by rfl
  refine ⟨hsome, ?_, ?_⟩
  · exact ((extrapolate_entity_spec _ "bob" 2
      ⟨"bob", "participant", 1, 2, 3, 0, 4, 5, 6, 0, 0⟩).1 hsome).1
  · exact (extrapolate_entity_spec _ "nobody" 2
      ⟨"bob", "participant", 1, 2, 3, 0, 4, 5, 6, 0, 0⟩).2 hnone

/-! ### Claim C10: `EntityTransform` for an unknown entity -/

/-- Claim C10.  Applying an `EntityTransform` event for an entity id absent from
the mirror leaves the chunks, structures and entities maps entirely unchanged —
no entity is implicitly spawned — while `last_frame` still advances to
`max(last_frame, frame)` (and the transform signal is still emitted). -/
theorem apply_event_transform_unknown (c : ClientWorldCache) (entity_id : String)
    (x y z rotation_y vx vy vz : ℚ) (frame : ℕ) (dt : ℚ)
    (h : alookup c.entities entity_id = none) :
    (apply_event c (.entityTransform entity_id x y z rotation_y vx vy vz frame dt)).1.chunks
        = c.chunks ∧
    (apply_event c (.entityTransform entity_id x y z rotation_y vx vy vz frame dt)).1.structures
        = c.structures ∧
    (apply_event c (.entityTransform entity_id x y z rotation_y vx vy vz frame dt)).1.entities
        = c.entities ∧
    (apply_event c (.entityTransform entity_id x y z rotation_y vx vy vz frame dt)).1.last_frame
        = max c.last_frame frame ∧
    (apply_event c (.entityTransform entity_id x y z rotation_y vx vy vz frame dt)).2
        = [.entity_transform entity_id x y z rotation_y vx vy vz frame dt] := by
  simp [apply_event, ClientWorldCache.update_entity_transform, h]

/-- Claim C10, witness: a mirror caching only entity `"bob"`, hit with a
transform for the unknown id `"carol"` at frame 9. -/
theorem apply_event_transform_unknown_witness :
    (alookup (ClientWorldCache.mk []
        [] [("bob", ⟨"bob", "participant", 1, 2, 3, 0, 4, 5, 6, 0, 0⟩)] 4 false).entities
        "carol" = none) ∧
    (apply_event (ClientWorldCache.mk []
        [] [("bob", ⟨"bob", "participant", 1, 2, 3, 0, 4, 5, 6, 0, 0⟩)] 4 false)
        (.entityTransform "carol" 7 8 9 0 0 0 0 9 0)).1.entities
      = [("bob", ⟨"bob", "participant", 1, 2, 3, 0, 4, 5, 6, 0, 0⟩)] ∧
    (apply_event (ClientWorldCache.mk []
        [] [("bob", ⟨"bob", "participant", 1, 2, 3, 0, 4, 5, 6, 0, 0⟩)] 4 false)
        (.entityTransform "carol" 7 8 9 0 0 0 0 9 0)).1.last_frame = max 4 9 := by
  have hnone : alookup (ClientWorldCache.mk []
      [] [("bob", ⟨"bob", "participant", 1, 2, 3, 0, 4, 5, 6, 0, 0⟩)] 4 false).entities
      "carol" = none := by rfl
  refine ⟨hnone, ?_, ?_⟩
  · exact (apply_event_transform_unknown _ "carol" 7 8 9 0 0 0 0 9 0 hnone).2.2.1
  · exact (apply_event_transform_unknown _ "carol" 7 8 9 0 0 0 0 9 0 hnone).2.2.2.1

/-! ## NATS-over-WebSocket frames (`clients/wasm/src/nats_ws.rs`)

Wire text is modelled as `List Char`, one `Char` per byte — exact for the ASCII
frames of the protocol (the Rust `payload.len()` byte length is the list length
here).  Whitespace is the ASCII whitespace recognised by `Char.isWhitespace`,
which coincides with Rust's on the ASCII frames in question. -/

def crlf : List Char := ['\r', '\n']

/-- Rust `str::split("\r\n")`: split at each non-overlapping occurrence,
scanning left to right. -/
def splitCRLF : List Char → List (List Char)
  | [] => [[]]
  | [c] => [[c]]
  | c1 :: c2 :: rest =>
    if c1 = '\r' ∧ c2 = '\n' then [] :: splitCRLF rest
    else
      match splitCRLF (c2 :: rest) with
      | [] => [[c1]]
      | l :: ls => (c1 :: l) :: ls

/-- Whether the text contains the two-byte sequence `"\r\n"`. -/
def hasCRLF : List Char → Bool
  | [] => false
  | [_] => false
  | c1 :: c2 :: rest => if c1 = '\r' ∧ c2 = '\n' then true else hasCRLF (c2 :: rest)

/-- Rust `str::trim`. -/
def trimChars (l : List Char) : List Char :=
  ((l.dropWhile Char.isWhitespace).reverse.dropWhile Char.isWhitespace).reverse

/-- Accumulator loop behind `str::split_whitespace`. -/
def wordsAux : List Char → List Char → List (List Char)
  | [], acc => if acc.isEmpty then [] else [acc.reverse]
  | c :: rest, acc =>
    if c.isWhitespace then
      if acc.isEmpty then wordsAux rest [] else acc.reverse :: wordsAux rest []
    else wordsAux rest (c :: acc)

/-- Rust `str::split_whitespace` (maximal non-whitespace runs, empties dropped). -/
def splitWhitespace (l : List Char) : List (List Char) := wordsAux l []

/-- Value of an ASCII digit. -/
def digitVal? (c : Char) : Option ℕ :=
  if '0' ≤ c ∧ c ≤ '9' then some (c.toNat - '0'.toNat) else none

/-- Digit-accumulation loop of `usize::from_str`. -/
def parseDigits : List Char → ℕ → Option ℕ
  | [], acc => some acc
  | c :: rest, acc =>
    match digitVal? c with
    | some d => parseDigits rest (acc * 10 + d)
    | none => none

/-- One optional leading `'+'`, as `usize::from_str` accepts. -/
def stripPlus (l : List Char) : List Char :=
  match l with
  | c :: r => if c = '+' then r else l
  | [] => l

/-- Rust `str::parse::<usize>()`: optional `'+'`, one or more ASCII digits,
value within `usize` range (`usizeMax` on the 64-bit hosts the server targets). -/
def parse_usize (l : List Char) : Option ℕ :=
  let l2 := stripPlus l
  if l2.isEmpty then none
  else
    match parseDigits l2 0 with
    | some n => if n ≤ FV.usizeMax then some n else none
    | none => none

/-- Decimal formatting of an unsigned integer (Rust `Display`), fuelled so the
recursion is structural. -/
def natToDecAux : ℕ → ℕ → List Char
  | 0, _ => []
  | fuel + 1, n =>
    if n < 10 then [Char.ofNat (48 + n)]
    else natToDecAux fuel (n / 10) ++ [Char.ofNat (48 + n % 10)]

def natToDec (n : ℕ) : List Char := natToDecAux (n + 1) n

/-- A parsed NATS operation received from the server (`NatsOp`); only the
fields the claims mention are carried. -/
inductive NatsOp where
  | info (json : List Char)
  | msg (subject : List Char) (payload : List Char)
  | ping
  | ok
  | err (message : List Char)
deriving DecidableEq

/-- `pub_frame`: `format!("PUB {} {}\r\n{}\r\n", subject, payload.len(), payload)`. -/
def pub_frame (subject payload : List Char) : List Char :=
  "PUB ".toList ++ subject ++ [' '] ++ natToDec payload.length ++ crlf ++ payload ++ crlf

/-- The header of the server's echoed `MSG` frame, as in claim C7:
`MSG <subject> <sid> <len>`. -/
def msg_header (subject : List Char) (sid len : ℕ) : List Char :=
  "MSG ".toList ++ subject ++ [' '] ++ natToDec sid ++ [' '] ++ natToDec len

/-- The echoed frame of claim C7: `MSG <subject> <sid> <len>\r\n<payload>\r\n`. -/
def msg_echo (subject : List Char) (sid : ℕ) (payload : List Char) : List Char :=
  msg_header subject sid payload.length ++ crlf ++ payload ++ crlf

/-- The line loop of `parse_frame`: dispatch each (trimmed) line; a `MSG`
header consumes the following line as payload, truncated to the declared byte
count. -/
def parseLines : List (List Char) → List NatsOp
  | [] => []
  | line :: rest =>
    let l := trimChars line
    if l.isEmpty then parseLines rest
    else if "INFO ".toList.isPrefixOf l then .info (l.drop 5) :: parseLines rest
    else if l = "PING".toList then .ping :: parseLines rest
    else if l = "+OK".toList then .ok :: parseLines rest
    else if "-ERR ".toList.isPrefixOf l then .err (l.drop 5) :: parseLines rest
    else if "MSG ".toList.isPrefixOf l then
      let parts := splitWhitespace l
      if parts.length < 4 then parseLines rest
      else
        match rest with
        | [] => []
        | payload_line :: rest2 =>
          let byte_count := (parse_usize (parts.getLastD [])).getD 0
          .msg (parts.getD 1 [])
              (payload_line.take (min payload_line.length byte_count)) ::
            parseLines rest2
    else parseLines rest

/-- `parse_frame`: split the WebSocket text frame on `"\r\n"` and run the line
loop. -/
def parse_frame (text : List Char) : List NatsOp := parseLines (splitCRLF text)

/-! ### Decimal formatting round-trips through the digit loop -/

theorem natToDecAux_digit (fuel n : ℕ) :
    ∀ c ∈ natToDecAux fuel n, '0' ≤ c ∧ c ≤ '9' := by
  induction fuel generalizing n with
  | zero => intro c hc; simp [natToDecAux] at hc
  | succ k ih =>
    intro c hc
    unfold natToDecAux at hc
    by_cases h : n < 10
    · rw [if_pos h] at hc
      simp only [List.mem_singleton] at hc
      subst hc
      interval_cases n <;> exact ⟨by decide, by decide⟩
    · rw [if_neg h] at hc
      rcases List.mem_append.mp hc with h1 | h1
      · exact ih (n / 10) c h1
      · simp only [List.mem_singleton] at h1
        subst h1
        have hm : n % 10 < 10 := Nat.mod_lt _ (by omega)
        interval_cases hmod : (n % 10) <;> exact ⟨by decide, by decide⟩

theorem digit_not_whitespace {c : Char} (h : '0' ≤ c ∧ c ≤ '9') :
    c.isWhitespace = false := by
  rcases h with ⟨h1, h2⟩
  by_contra hw
  simp only [Bool.not_eq_false] at hw
  simp only [Char.isWhitespace, Bool.or_eq_true, decide_eq_true_eq] at hw
  rcases hw with ((rfl | rfl) | rfl) | rfl <;> exact absurd h1 (by decide)

theorem digit_ne_plus {c : Char} (h : '0' ≤ c ∧ c ≤ '9') : c ≠ '+' := by
  rcases h with ⟨h1, _⟩
  rintro rfl
  exact absurd h1 (by decide)

theorem natToDecAux_ne_nil (fuel n : ℕ) (hf : n < fuel) :
    natToDecAux fuel n ≠ [] := by
  cases fuel with
  | zero => omega
  | succ k =>
    unfold natToDecAux
    by_cases h : n < 10
    · rw [if_pos h]; simp
    · rw [if_neg h]; simp

theorem natToDec_ne_nil (n : ℕ) : natToDec n ≠ [] :=
  natToDecAux_ne_nil (n + 1) n (Nat.lt_succ_self n)

theorem natToDec_digit (n : ℕ) : ∀ c ∈ natToDec n, '0' ≤ c ∧ c ≤ '9' :=
  natToDecAux_digit (n + 1) n

theorem parseDigits_append (l1 l2 : List Char) (acc : ℕ) :
    parseDigits (l1 ++ l2) acc =
      (parseDigits l1 acc).bind fun m => parseDigits l2 m := by
  induction l1 generalizing acc with
  | nil => simp [parseDigits]
  | cons c t ih =>
    simp only [List.cons_append, parseDigits]
    cases digitVal? c with
    | some d => exact ih (acc * 10 + d)
    | none => simp

theorem digitVal_ofNat (d : ℕ) (hd : d < 10) :
    digitVal? (Char.ofNat (48 + d)) = some d := by
  interval_cases d <;> decide

theorem parseDigits_natToDecAux (fuel : ℕ) :
    ∀ n, n < fuel → parseDigits (natToDecAux fuel n) 0 = some n := by
  induction fuel with
  | zero => omega
  | succ k ih =>
    intro n hn
    unfold natToDecAux
    by_cases h : n < 10
    · rw [if_pos h]
      simp [parseDigits, digitVal_ofNat n h]
    · rw [if_neg h]
      rw [parseDigits_append]
      have hrec : n / 10 < k := by omega
      rw [ih (n / 10) hrec]
      have hm : n % 10 < 10 := by omega
      have hsplit : n / 10 * 10 + n % 10 = n := by omega
      simp [parseDigits, digitVal_ofNat (n % 10) hm, hsplit]

theorem parse_usize_natToDec (n : ℕ) (hn : n ≤ FV.usizeMax) :
    parse_usize (natToDec n) = some n := by
  have hd := natToDec_digit n
  have hne := natToDec_ne_nil n
  cases hl : natToDec n with
  | nil => exact absurd hl hne
  | cons c t =>
    have hc : '0' ≤ c ∧ c ≤ '9' := hd c (by rw [hl]; simp)
    have hstrip : stripPlus (c :: t) = c :: t := by
      simp only [stripPlus]
      rw [if_neg (digit_ne_plus hc)]
    have hpd : parseDigits (c :: t) 0 = some n := by
      rw [← hl]
      exact parseDigits_natToDecAux (n + 1) n (Nat.lt_succ_self n)
    simp [parse_usize, hstrip, hpd, hn]

/-! ### `split_whitespace` on a `MSG` header -/

theorem wordsAux_word (w : List Char) (hw : ∀ c ∈ w, c.isWhitespace = false) :
    ∀ rest acc, wordsAux (w ++ rest) acc = wordsAux rest (w.reverse ++ acc) := by
  induction w with
  | nil => intro rest acc; simp
  | cons c t ih =>
    intro rest acc
    simp only [List.cons_append, wordsAux, hw c (by simp), Bool.false_eq_true, if_false,
      List.append_eq]
    rw [ih (fun d hd => hw d (by simp [hd])) rest (c :: acc)]
    simp

theorem wordsAux_space (rest acc : List Char) :
    wordsAux (' ' :: rest) acc =
      if acc.isEmpty then wordsAux rest [] else acc.reverse :: wordsAux rest [] := by
  simp [wordsAux]

theorem wordsAux_nil (acc : List Char) :
    wordsAux [] acc = if acc.isEmpty then [] else [acc.reverse] := rfl

theorem wordsAux_word_space (w rest : List Char) (hne : w ≠ [])
    (hw : ∀ c ∈ w, c.isWhitespace = false) :
    wordsAux (w ++ ' ' :: rest) [] = w :: wordsAux rest [] := by
  rw [wordsAux_word w hw (' ' :: rest) [], wordsAux_space]
  rw [if_neg (by simp [hne])]
  simp

theorem wordsAux_last_word (w : List Char) (hne : w ≠ [])
    (hw : ∀ c ∈ w, c.isWhitespace = false) :
    wordsAux w [] = [w] := by
  have h := wordsAux_word w hw [] []
  rw [List.append_nil] at h
  rw [h, wordsAux_nil, if_neg (by simp [hne])]
  simp

theorem splitWhitespace_msg_header (s d1 d2 : List Char)
    (hs : s ≠ []) (hsw : ∀ c ∈ s, c.isWhitespace = false)
    (h1 : d1 ≠ []) (h1w : ∀ c ∈ d1, c.isWhitespace = false)
    (h2 : d2 ≠ []) (h2w : ∀ c ∈ d2, c.isWhitespace = false) :
    splitWhitespace ("MSG ".toList ++ s ++ [' '] ++ d1 ++ [' '] ++ d2) =
      ["MSG".toList, s, d1, d2] := by
  unfold splitWhitespace
  have hshape : "MSG ".toList ++ s ++ [' '] ++ d1 ++ [' '] ++ d2 =
      "MSG".toList ++ ' ' :: (s ++ ' ' :: (d1 ++ ' ' :: d2)) := by
    simp
  rw [hshape]
  rw [wordsAux_word_space "MSG".toList _ (by decide) (by decide)]
  rw [wordsAux_word_space s _ hs hsw]
  rw [wordsAux_word_space d1 _ h1 h1w]
  rw [wordsAux_last_word d2 h2 h2w]

/-! ### `splitCRLF` on frames whose pieces carry no `"\r\n"` -/

theorem splitCRLF_ne_nil : ∀ l : List Char, splitCRLF l ≠ []
  | [] => by simp [splitCRLF]
  | [c] => by simp [splitCRLF]
  | c1 :: c2 :: rest => by
    by_cases h : c1 = '\r' ∧ c2 = '\n'
    · simp [splitCRLF, h]
    · have ih := splitCRLF_ne_nil (c2 :: rest)
      simp only [splitCRLF, if_neg h]
      cases hsp : splitCRLF (c2 :: rest) with
      | nil => exact absurd hsp ih
      | cons l ls => simp

theorem hasCRLF_cons_false {c1 c2 : Char} {rest : List Char}
    (h : hasCRLF (c1 :: c2 :: rest) = false) :
    ¬(c1 = '\r' ∧ c2 = '\n') ∧ hasCRLF (c2 :: rest) = false := by
  by_cases hc : c1 = '\r' ∧ c2 = '\n'
  · rw [show hasCRLF (c1 :: c2 :: rest) = true from by simp [hasCRLF, hc]] at h
    exact absurd h (by simp)
  · refine ⟨hc, ?_⟩
    simpa [hasCRLF, hc] using h

theorem splitCRLF_append : ∀ (a rest : List Char), hasCRLF a = false →
    splitCRLF (a ++ '\r' :: '\n' :: rest) = a :: splitCRLF rest
  | [], rest, _ => by simp [splitCRLF]
  | [c], rest, _ => by
    have hc : ¬(c = '\r' ∧ ('\r' : Char) = '\n') := by simp
    simp only [List.cons_append, List.nil_append, splitCRLF, if_neg hc]
    simp
  | c1 :: c2 :: a, rest, h => by
    obtain ⟨hc, h2⟩ := hasCRLF_cons_false h
    have ih := splitCRLF_append (c2 :: a) rest h2
    rw [show (c2 :: a) ++ '\r' :: '\n' :: rest = c2 :: (a ++ '\r' :: '\n' :: rest)
      from rfl] at ih
    simp only [List.cons_append, splitCRLF, if_neg hc, List.append_eq]
    rw [ih]

/-- No carriage return at all certainly means no `"\r\n"`. -/
theorem hasCRLF_eq_false_of_no_cr : ∀ l : List Char, (∀ c ∈ l, c ≠ '\r') →
    hasCRLF l = false
  | [], _ => rfl
  | [_], _ => rfl
  | c1 :: c2 :: rest, h => by
    have hc : ¬(c1 = '\r' ∧ c2 = '\n') := fun hx => h c1 (by simp) hx.1
    simp only [hasCRLF, if_neg hc]
    exact hasCRLF_eq_false_of_no_cr (c2 :: rest) fun c hcmem =>
      h c (List.mem_cons_of_mem c1 hcmem)

/-! ### `str::trim` fixed points -/

theorem dropWhile_head_not_ws (l : List Char)
    (h : ∀ c, l.head? = some c → c.isWhitespace = false) :
    l.dropWhile Char.isWhitespace = l := by
  cases l with
  | nil => rfl
  | cons c t =>
    rw [List.dropWhile_cons, h c rfl]
    simp

theorem trimChars_eq_self (l : List Char)
    (h1 : ∀ c, l.head? = some c → c.isWhitespace = false)
    (h2 : ∀ c, l.getLast? = some c → c.isWhitespace = false) :
    trimChars l = l := by
  unfold trimChars
  rw [dropWhile_head_not_ws l h1]
  rw [dropWhile_head_not_ws l.reverse
    (fun c hc => h2 c (by rwa [List.head?_reverse] at hc))]
  exact List.reverse_reverse l

/-! ### Claim C7: PUB/MSG round-trip -/

/-- One pass of the line loop over a well-formed four-field `MSG` header:
the next line is consumed as payload, truncated to the declared byte count. -/
theorem parseLines_msg_line (line payload : List Char) (rest2 : List (List Char))
    (w0 w1 w2 w3 : List Char)
    (htrim : trimChars line = line)
    (hH0 : line.isEmpty = false)
    (hINFO : "INFO ".toList.isPrefixOf line = false)
    (hping : ¬(line = "PING".toList))
    (hok : ¬(line = "+OK".toList))
    (hERR : "-ERR ".toList.isPrefixOf line = false)
    (hMSG : "MSG ".toList.isPrefixOf line = true)
    (hwords : splitWhitespace line = [w0, w1, w2, w3]) :
    parseLines (line :: payload :: rest2) =
      NatsOp.msg w1 (payload.take (min payload.length ((parse_usize w3).getD 0))) ::
        parseLines rest2 := by
  have hstep : parseLines (line :: payload :: rest2) =
      (if (trimChars line).isEmpty then parseLines (payload :: rest2)
       else if "INFO ".toList.isPrefixOf (trimChars line) then
         NatsOp.info ((trimChars line).drop 5) :: parseLines (payload :: rest2)
       else if trimChars line = "PING".toList then
         NatsOp.ping :: parseLines (payload :: rest2)
       else if trimChars line = "+OK".toList then
         NatsOp.ok :: parseLines (payload :: rest2)
       else if "-ERR ".toList.isPrefixOf (trimChars line) then
         NatsOp.err ((trimChars line).drop 5) :: parseLines (payload :: rest2)
       else if "MSG ".toList.isPrefixOf (trimChars line) then
         (if (splitWhitespace (trimChars line)).length < 4 then
            parseLines (payload :: rest2)
          else
            NatsOp.msg ((splitWhitespace (trimChars line)).getD 1 [])
                (payload.take (min payload.length
                  ((parse_usize ((splitWhitespace (trimChars line)).getLastD [])).getD 0))) ::
              parseLines rest2)
       else parseLines (payload :: rest2)) := rfl
  rw [hstep, htrim, hH0, hINFO, hERR, hMSG, hwords]
  simp only [Bool.false_eq_true, if_false, eq_self_iff_true, if_true]
  rw [if_neg hping, if_neg hok]
  rw [if_neg (by simp : ¬(([w0, w1, w2, w3] : List (List Char)).length < 4))]
  rfl

/-- Claim C7 as amended: for every NONEMPTY whitespace-free subject and every
payload free of `"\r\n"` (and within `usize` range, as any Rust string is), the
PUB frame is `PUB <subject> <len>\r\n<payload>\r\n`, and parsing the echoed
`MSG <subject> <sid> <len>\r\n<payload>\r\n` yields exactly one `NatsOp::Msg`
with the original subject and payload bytes.  The nonemptiness of the subject
is forced by the counterexample below: the claim as frozen also admits the
empty subject, for which the echoed header has only three fields and parsing
yields no operation. -/
theorem pub_msg_roundtrip (s p : List Char) (sid : ℕ)
    (hs : s ≠ []) (hsw : ∀ c ∈ s, c.isWhitespace = false)
    (hp : hasCRLF p = false) (hlen : p.length ≤ FV.usizeMax) :
    pub_frame s p =
      "PUB ".toList ++ s ++ [' '] ++ natToDec p.length ++ crlf ++ p ++ crlf ∧
    parse_frame (msg_echo s sid p) = [NatsOp.msg s p] := by
  refine ⟨rfl, ?_⟩
  have h1 : natToDec sid ≠ [] := natToDec_ne_nil sid
  have h2 : natToDec p.length ≠ [] := natToDec_ne_nil _
  have h1w : ∀ c ∈ natToDec sid, c.isWhitespace = false :=
    fun c hc => digit_not_whitespace (natToDec_digit sid c hc)
  have h2w : ∀ c ∈ natToDec p.length, c.isWhitespace = false :=
    fun c hc => digit_not_whitespace (natToDec_digit p.length c hc)
  -- the header contains no carriage return at all
  have hheader_no_cr : ∀ c ∈ msg_header s sid p.length, c ≠ '\r' := by
    intro c hc
    unfold msg_header at hc
    simp only [List.append_assoc, List.mem_append, List.mem_singleton] at hc
    rcases hc with hc | hc | hc | hc | hc | hc
    · have : c = 'M' ∨ c = 'S' ∨ c = 'G' ∨ c = ' ' := by simpa using hc
      rcases this with rfl | rfl | rfl | rfl <;> decide
    · intro hEq
      subst hEq
      have hws := hsw _ hc
      simp [Char.isWhitespace] at hws
    · subst hc; decide
    · intro hEq
      subst hEq
      have hws := h1w _ hc
      simp [Char.isWhitespace] at hws
    · subst hc; decide
    · intro hEq
      subst hEq
      have hws := h2w _ hc
      simp [Char.isWhitespace] at hws
  have hheadcrlf : hasCRLF (msg_header s sid p.length) = false :=
    hasCRLF_eq_false_of_no_cr _ hheader_no_cr
  -- the frame splits into [header, payload, ""]
  have hlines : splitCRLF (msg_echo s sid p) =
      [msg_header s sid p.length, p, []] := by
    unfold msg_echo
    have hshape : msg_header s sid p.length ++ crlf ++ p ++ crlf =
        msg_header s sid p.length ++ '\r' :: '\n' :: (p ++ '\r' :: '\n' :: []) := by
      simp [crlf]
    rw [hshape, splitCRLF_append _ _ hheadcrlf, splitCRLF_append _ _ hp]
    rfl
  -- the header is its own trim
  have hhead : (msg_header s sid p.length).head? = some 'M' := rfl
  have hlastw : ∀ c, (msg_header s sid p.length).getLast? = some c →
      c.isWhitespace = false := by
    intro c hc
    have hassoc : msg_header s sid p.length =
        ("MSG ".toList ++ s ++ [' '] ++ natToDec sid ++ [' ']) ++ natToDec p.length := by
      simp [msg_header]
    rw [hassoc, List.getLast?_append_of_ne_nil _ h2] at hc
    have hmem : c ∈ natToDec p.length :=
      List.mem_of_mem_getLast? (by rw [hc]; rfl)
    exact h2w c hmem
  have htrim : trimChars (msg_header s sid p.length) = msg_header s sid p.length :=
    trimChars_eq_self _
      (by intro c hc; rw [hhead] at hc; injection hc with hc; subst hc; decide)
      hlastw
  -- words of the header
  have hwords : splitWhitespace (msg_header s sid p.length) =
      ["MSG".toList, s, natToDec sid, natToDec p.length] := by
    unfold msg_header
    exact splitWhitespace_msg_header s (natToDec sid) (natToDec p.length)
      hs hsw h1 h1w h2 h2w
  -- branch facts
  have hH0 : (msg_header s sid p.length).isEmpty = false := rfl
  have hINFO : "INFO ".toList.isPrefixOf (msg_header s sid p.length) = false := rfl
  have hERR : "-ERR ".toList.isPrefixOf (msg_header s sid p.length) = false := rfl
  have hMSG : "MSG ".toList.isPrefixOf (msg_header s sid p.length) = true := by
    unfold msg_header
    rw [List.isPrefixOf_iff_prefix]
    exact List.prefix_append _ _
  have hping : ¬(msg_header s sid p.length = "PING".toList) := by
    intro hEq
    have hhd := congrArg List.head? hEq
    rw [hhead] at hhd
    exact absurd hhd (by decide)
  have hok : ¬(msg_header s sid p.length = "+OK".toList) := by
    intro hEq
    have hhd := congrArg List.head? hEq
    rw [hhead] at hhd
    exact absurd hhd (by decide)
  have hparse : parse_usize (natToDec p.length) = some p.length :=
    parse_usize_natToDec _ hlen
  have hnil2 : parseLines [[]] = [] := rfl
  unfold parse_frame
  rw [hlines]
  rw [parseLines_msg_line (msg_header s sid p.length) p [[]]
    "MSG".toList s (natToDec sid) (natToDec p.length)
    htrim hH0 hINFO hping hok hERR hMSG hwords]
  rw [hparse, hnil2]
  simp

/-- Claim C7 as frozen is refuted at the empty subject (which contains no
whitespace): the echoed header `MSG  99 5` has only three whitespace-separated
fields, so `parse_frame` yields no operation at all instead of one `Msg`. -/
theorem pub_msg_roundtrip_empty_subject :
    parse_frame (msg_echo [] 99 "hello".toList) = [] ∧
    ([] : List NatsOp) ≠ [NatsOp.msg [] "hello".toList] := by
  exact ⟨by decide, by decide⟩

/-- Claim C7, witness: scenario S6 — subject `intent.move`, payload
`\x7b"dx":1.5\x7d` (10 bytes), sid 99. -/
theorem pub_msg_roundtrip_witness :
    pub_frame "intent.move".toList "\x7b\"dx\":1.5\x7d".toList =
      "PUB ".toList ++ "intent.move".toList ++ [' '] ++
        natToDec ("\x7b\"dx\":1.5\x7d".toList.length) ++ crlf ++
        "\x7b\"dx\":1.5\x7d".toList ++ crlf ∧
    parse_frame (msg_echo "intent.move".toList 99 "\x7b\"dx\":1.5\x7d".toList) =
      [NatsOp.msg "intent.move".toList "\x7b\"dx\":1.5\x7d".toList] :=
  pub_msg_roundtrip "intent.move".toList "\x7b\"dx\":1.5\x7d".toList 99
    (by decide) (by decide) (by decide) (by decide)

/-! ## Streaming engine (`src/service.rs`)

`WorldService` holds the authoritative streaming state.  The physics registry
(`janet_operations::PhysicsRegistry`, external collaborator per spec §2) is a
parameter: `get_transform`, `register_body` and `unregister_body` outcomes are
arbitrary functions of the body id.  `Arc<dyn TerrainSource>` enters through
its only observable in this file, the `HeightmapTerrain` downcast
(`some` parameters when the terrain is a heightmap, `none` otherwise); the
structure registry is not consulted by any verified claim and is omitted. -/

structure Vec3 where
  x : ℚ
  y : ℚ
  z : ℚ
deriving DecidableEq

structure CellCoord where
  x : ℤ
  y : ℤ
  z : ℤ
deriving DecidableEq

structure WorldServiceConfig where
  cell_size : ℚ
  activation_radius : ℤ
  world_seed : ℕ
  tree_density : ℚ
  physics_dt : ℚ
deriving DecidableEq

structure ChunkActivated where
  chunk_id : String
  cx : ℤ
  cy : ℤ
  seed : ℕ
  lod : ℕ
  chunk_size : ℚ
deriving DecidableEq

structure ChunkDeactivated where
  chunk_id : String
deriving DecidableEq

structure EntityTransform where
  entity_id : String
  x : ℚ
  y : ℚ
  z : ℚ
  rotation_y : ℚ
  vx : ℚ
  vy : ℚ
  vz : ℚ
  dt : ℚ
deriving DecidableEq

structure TickEvents where
  tick : ℕ
  activated : List ChunkActivated
  deactivated : List ChunkDeactivated
  entity_transforms : List EntityTransform
deriving DecidableEq

/-- The default physics simulation, abstracted to the three operations the
engine calls on it. -/
structure PhysicsSim where
  get_transform : String → Option (ℚ × ℚ)
  register_ok : String → Bool
  unregister_ok : String → Bool

structure PhysicsRegistry where
  default_simulation : Option PhysicsSim

/-- `World` as the engine sees it: the result of the
`terrain.as_any().downcast_ref::<HeightmapTerrain>()` capability test. -/
structure World where
  heightmap : Option HeightmapTerrain

structure WorldService where
  config : WorldServiceConfig
  active_cells : List CellCoord
  terrain_bodies : List (CellCoord × String)
  cell_objects : List (CellCoord × List String)
  participant_positions : List (String × Vec3)
  world : World
  tick_count : ℕ

def WorldService.new (config : WorldServiceConfig) (world : World) : WorldService :=
  { config := config, active_cells := [], terrain_bodies := [], cell_objects := [],
    participant_positions := [], world := world, tick_count := 0 }

def register_participant (svc : WorldService) (id : String) (position : Vec3) :
    WorldService :=
  { svc with participant_positions := aupsert svc.participant_positions id position }

def unregister_participant (svc : WorldService) (id : String) : WorldService :=
  { svc with participant_positions := aremove svc.participant_positions id }

def participant_count (svc : WorldService) : ℕ := svc.participant_positions.length

/-- `sync_positions_from_registry`: with no default simulation, return early;
otherwise overwrite each participant whose transform reads back, and silently
keep the old position otherwise. -/
def sync_positions_from_registry (phys : PhysicsRegistry) (svc : WorldService) :
    WorldService :=
  match phys.default_simulation with
  | none => svc
  | some sim =>
    { svc with participant_positions :=
        svc.participant_positions.map fun pr =>
          match sim.get_transform pr.1 with
          | some pos => (pr.1, ⟨pos.1, pos.2, 0⟩)
          | none => pr }

/-- `(v / cell_size).floor() as i32`, the participant-to-cell projection. -/
def cellIndex (v cs : ℚ) : ℤ := ((FV.fin v).divQ cs).floorCastI32

/-- Rust `lo..=hi` over `i32`, as a list (empty when `hi < lo`). -/
def rangeIcc (lo hi : ℤ) : List ℤ :=
  (List.range (hi + 1 - lo).toNat).map fun (i : ℕ) => lo + (i : ℤ)

/-- `HashSet::insert` on the duplicate-free list model. -/
def insertCell (c : CellCoord) (l : List CellCoord) : List CellCoord :=
  if c ∈ l then l else c :: l

/-- `WorldService::compute_active_cells`: for each participant, insert every
cell of the Chebyshev square of radius `activation_radius` around the
participant's cell. -/
def compute_active_cells (svc : WorldService) : List CellCoord :=
  svc.participant_positions.foldl
    (fun acc pr =>
      (rangeIcc (-svc.config.activation_radius) svc.config.activation_radius).foldl
        (fun acc2 dx =>
          (rangeIcc (-svc.config.activation_radius) svc.config.activation_radius).foldl
            (fun acc3 dy =>
              insertCell
                ⟨cellIndex pr.2.x svc.config.cell_size + dx,
                 cellIndex pr.2.y svc.config.cell_size + dy, 0⟩ acc3)
            acc2)
        acc)
    []

/-- `format!("{}:{}", coord.x, coord.y)`. -/
def cell_chunk_id (c : CellCoord) : String := toString c.x ++ ":" ++ toString c.y

/-- `format!("terrain.{}.{}", coord.x, coord.y)`. -/
def terrain_body_id (c : CellCoord) : String :=
  "terrain." ++ toString c.x ++ "." ++ toString c.y

/-- `WorldService::activate_cell`: no-op on an already-active cell; otherwise
require the default simulation, register the terrain body when the terrain is a
heightmap (the collider value feeds only `register_body`, abstracted by
`register_ok`), mark the cell active and build the `ChunkActivated` event. -/
def activate_cell (phys : PhysicsRegistry) (svc : WorldService) (coord : CellCoord) :
    Except String (WorldService × Option ChunkActivated) :=
  if coord ∈ svc.active_cells then .ok (svc, none)
  else
    match phys.default_simulation with
    | none => .error "No default physics simulation"
    | some sim =>
      let afterTerrain : Except String WorldService :=
        match svc.world.heightmap with
        | some _hm =>
          let body_id := terrain_body_id coord
          if sim.register_ok body_id then
            .ok { svc with terrain_bodies := aupsert svc.terrain_bodies coord body_id }
          else .error "register_body failed"
        | none => .ok svc
      match afterTerrain with
      | .error e => .error e
      | .ok svc1 =>
        let svc2 := { svc1 with active_cells := insertCell coord svc1.active_cells }
        let seed_cs : ℕ × ℚ :=
          match svc.world.heightmap with
          | some hm => (hm.seed, hm.chunk_size)
          | none => (0, svc.config.cell_size)
        .ok (svc2, some ⟨cell_chunk_id coord, coord.x, coord.y, seed_cs.1, 0, seed_cs.2⟩)

/-- `WorldService::deactivate_cell`: unregister the terrain body and the cell's
object bodies (failures logged and swallowed, so physics outcomes never affect
the state), remove the cell from the active set, emit `ChunkDeactivated`.
Never fails. -/
def deactivate_cell (_phys : PhysicsRegistry) (svc : WorldService) (coord : CellCoord) :
    WorldService × ChunkDeactivated :=
  let svc1 := { svc with
    terrain_bodies := aremove svc.terrain_bodies coord
    cell_objects := aremove svc.cell_objects coord
    active_cells := svc.active_cells.filter fun c => c ≠ coord }
  (svc1, ⟨cell_chunk_id coord⟩)

/-- `collect_entity_transforms`: one transform per participant, with the cached
position and placeholder velocity/rotation/dt. -/
def collect_entity_transforms (svc : WorldService) : List EntityTransform :=
  svc.participant_positions.map fun pr =>
    ⟨pr.1, pr.2.x, pr.2.y, pr.2.z, 0, 0, 0, 0, 0⟩

/-- The deactivation loop of `tick` (step 4). -/
def deactivateLoop (phys : PhysicsRegistry) :
    WorldService → List CellCoord → WorldService × List ChunkDeactivated
  | svc, [] => (svc, [])
  | svc, c :: cs =>
    let r := deactivate_cell phys svc c
    let r2 := deactivateLoop phys r.1 cs
    (r2.1, r.2 :: r2.2)

/-- The activation loop of `tick` (step 5); the first failing activation aborts
the tick via `?`. -/
def activateLoop (phys : PhysicsRegistry) :
    WorldService → List CellCoord → Except String (WorldService × List ChunkActivated)
  | svc, [] => .ok (svc, [])
  | svc, c :: cs =>
    match activate_cell phys svc c with
    | .error e => .error e
    | .ok (svc1, ev?) =>
      match activateLoop phys svc1 cs with
      | .error e => .error e
      | .ok (svc2, evs) =>
        .ok (svc2, match ev? with | some ev => ev :: evs | none => evs)

/-- `WorldService::tick`: bump the counter, sync positions from physics,
reconcile the active set against the desired Chebyshev union (deactivations
before activations, `to_activate` computed after the deactivations), then
collect entity transforms. -/
def tick (phys : PhysicsRegistry) (svc : WorldService) :
    Except String (WorldService × TickEvents) :=
  let svc0 := { svc with tick_count := svc.tick_count + 1 }
  let svc1 := sync_positions_from_registry phys svc0
  let desired := compute_active_cells svc1
  let to_deactivate := svc1.active_cells.filter fun c => ¬(c ∈ desired)
  let dr := deactivateLoop phys svc1 to_deactivate
  let svc2 := dr.1
  let to_activate := desired.filter fun c => ¬(c ∈ svc2.active_cells)
  match activateLoop phys svc2 to_activate with
  | .error e => .error e
  | .ok (svc3, activated) =>
    .ok (svc3, ⟨svc3.tick_count, activated, dr.2, collect_entity_transforms svc3⟩)

/-- Whether `tick` succeeded. -/
def tickOk (phys : PhysicsRegistry) (svc : WorldService) : Bool :=
  match tick phys svc with
  | .ok _ => true
  | .error _ => false

/-- The engine state after a successful `tick` (unchanged on failure, as a
total projection for stating theorems). -/
def tickState (phys : PhysicsRegistry) (svc : WorldService) : WorldService :=
  match tick phys svc with
  | .ok r => r.1
  | .error _ => svc

/-- Participant-management commands (spec §4.3). -/
inductive POp where
  | register (id : String) (position : Vec3)
  | unregister (id : String)

def applyOp (svc : WorldService) : POp → WorldService
  | .register id pos => register_participant svc id pos
  | .unregister id => unregister_participant svc id

def applyOps (svc : WorldService) (ops : List POp) : WorldService :=
  ops.foldl applyOp svc

/-- Claim C1's spec-side formula: the union, over participant entries, of the
cells `(floor(p.x/cell_size)+dx, floor(p.y/cell_size)+dy, 0)` for
`dx, dy ∈ [-r, r]` (with the code's saturating `as i32` floor cast). -/
def specChebyshevUnion (ps : List (String × Vec3)) (cs : ℚ) (r : ℤ) :
    List CellCoord :=
  ps.flatMap fun pr =>
    (rangeIcc (-r) r).flatMap fun dx =>
      (rangeIcc (-r) r).map fun dy =>
        ⟨cellIndex pr.2.x cs + dx, cellIndex pr.2.y cs + dy, 0⟩

/-- The intermediate service of `tick` after the counter bump and the position
sync (its `svc1`). -/
def tick_svc1 (phys : PhysicsRegistry) (svc : WorldService) : WorldService :=
  sync_positions_from_registry phys { svc with tick_count := svc.tick_count + 1 }

/-- The desired active set computed by `tick`. -/
def tick_desired (phys : PhysicsRegistry) (svc : WorldService) : List CellCoord :=
  compute_active_cells (tick_svc1 phys svc)

/-- The result of `tick`'s deactivation loop. -/
def tick_dr (phys : PhysicsRegistry) (svc : WorldService) :
    WorldService × List ChunkDeactivated :=
  deactivateLoop phys (tick_svc1 phys svc)
    ((tick_svc1 phys svc).active_cells.filter fun c => ¬(c ∈ tick_desired phys svc))

/-- The service state between `tick`'s deactivation and activation loops. -/
def tick_svc2 (phys : PhysicsRegistry) (svc : WorldService) : WorldService :=
  (tick_dr phys svc).1

/-- The activation work list of `tick`, computed after the deactivations. -/
def tick_toActivate (phys : PhysicsRegistry) (svc : WorldService) : List CellCoord :=
  (tick_desired phys svc).filter fun c => ¬(c ∈ (tick_svc2 phys svc).active_cells)

/-! ### Membership in the computed active set -/

theorem mem_rangeIcc (lo hi a : ℤ) : a ∈ rangeIcc lo hi ↔ lo ≤ a ∧ a ≤ hi := by
  unfold rangeIcc
  simp only [List.mem_map, List.mem_range]
  constructor
  · rintro ⟨i, hi1, hEq⟩
    omega
  · rintro ⟨h1, h2⟩
    refine ⟨(a - lo).toNat, ?_, ?_⟩ <;> omega

theorem mem_insertCell (c a : CellCoord) (l : List CellCoord) :
    a ∈ insertCell c l ↔ a = c ∨ a ∈ l := by
  unfold insertCell
  by_cases h : c ∈ l
  · rw [if_pos h]
    exact ⟨Or.inr, fun hx => hx.elim (fun hx => hx ▸ h) id⟩
  · rw [if_neg h]
    simp

theorem mem_foldl_of_step {α : Type} (s : List CellCoord → α → List CellCoord)
    (P : α → CellCoord → Prop)
    (hs : ∀ acc x c, c ∈ s acc x ↔ c ∈ acc ∨ P x c) :
    ∀ (L : List α) (acc : List CellCoord) (c : CellCoord),
      c ∈ L.foldl s acc ↔ c ∈ acc ∨ ∃ x ∈ L, P x c := by
  intro L
  induction L with
  | nil => simp
  | cons h t ih =>
    intro acc c
    rw [List.foldl_cons, ih, hs]
    constructor
    · rintro ((hc | hp) | ⟨x, hx, hp⟩)
      · exact Or.inl hc
      · exact Or.inr ⟨h, by simp, hp⟩
      · exact Or.inr ⟨x, by simp [hx], hp⟩
    · rintro (hc | ⟨x, hx, hp⟩)
      · exact Or.inl (Or.inl hc)
      · rcases List.mem_cons.mp hx with rfl | hx
        · exact Or.inl (Or.inr hp)
        · exact Or.inr ⟨x, hx, hp⟩

theorem mem_compute_active_cells (svc : WorldService) (c : CellCoord) :
    c ∈ compute_active_cells svc ↔
      ∃ pr ∈ svc.participant_positions,
        ∃ dx ∈ rangeIcc (-svc.config.activation_radius) svc.config.activation_radius,
          ∃ dy ∈ rangeIcc (-svc.config.activation_radius) svc.config.activation_radius,
            c = ⟨cellIndex pr.2.x svc.config.cell_size + dx,
                 cellIndex pr.2.y svc.config.cell_size + dy, 0⟩ := by
  have hinner : ∀ (pr : String × Vec3) (dx : ℤ) (acc3 : List CellCoord) (d : CellCoord),
      d ∈ (rangeIcc (-svc.config.activation_radius) svc.config.activation_radius).foldl
        (fun acc3 dy =>
          insertCell ⟨cellIndex pr.2.x svc.config.cell_size + dx,
            cellIndex pr.2.y svc.config.cell_size + dy, 0⟩ acc3) acc3 ↔
      d ∈ acc3 ∨
        ∃ dy ∈ rangeIcc (-svc.config.activation_radius) svc.config.activation_radius,
          d = ⟨cellIndex pr.2.x svc.config.cell_size + dx,
               cellIndex pr.2.y svc.config.cell_size + dy, 0⟩ :=
    fun pr dx acc3 d =>
      mem_foldl_of_step _
        (fun dy b => b = ⟨cellIndex pr.2.x svc.config.cell_size + dx,
          cellIndex pr.2.y svc.config.cell_size + dy, 0⟩)
        (fun acc x cc => (mem_insertCell _ cc acc).trans or_comm) _ acc3 d
  have hmid : ∀ (pr : String × Vec3) (acc2 : List CellCoord) (b : CellCoord),
      b ∈ (rangeIcc (-svc.config.activation_radius) svc.config.activation_radius).foldl
        (fun acc2 dx =>
          (rangeIcc (-svc.config.activation_radius) svc.config.activation_radius).foldl
            (fun acc3 dy =>
              insertCell ⟨cellIndex pr.2.x svc.config.cell_size + dx,
                cellIndex pr.2.y svc.config.cell_size + dy, 0⟩ acc3) acc2) acc2 ↔
      b ∈ acc2 ∨
        ∃ dx ∈ rangeIcc (-svc.config.activation_radius) svc.config.activation_radius,
          ∃ dy ∈ rangeIcc (-svc.config.activation_radius) svc.config.activation_radius,
            b = ⟨cellIndex pr.2.x svc.config.cell_size + dx,
                 cellIndex pr.2.y svc.config.cell_size + dy, 0⟩ :=
    fun pr acc2 b =>
      mem_foldl_of_step _
        (fun dx bb =>
          ∃ dy ∈ rangeIcc (-svc.config.activation_radius) svc.config.activation_radius,
            bb = ⟨cellIndex pr.2.x svc.config.cell_size + dx,
                  cellIndex pr.2.y svc.config.cell_size + dy, 0⟩)
        (fun acc x cc => hinner pr x acc cc) _ acc2 b
  unfold compute_active_cells
  rw [mem_foldl_of_step _
    (fun pr cc =>
      ∃ dx ∈ rangeIcc (-svc.config.activation_radius) svc.config.activation_radius,
        ∃ dy ∈ rangeIcc (-svc.config.activation_radius) svc.config.activation_radius,
          cc = ⟨cellIndex pr.2.x svc.config.cell_size + dx,
               cellIndex pr.2.y svc.config.cell_size + dy, 0⟩)
    (fun acc pr cc => hmid pr acc cc) svc.participant_positions [] c]
  simp

theorem mem_specChebyshevUnion (ps : List (String × Vec3)) (cs : ℚ) (r : ℤ)
    (c : CellCoord) :
    c ∈ specChebyshevUnion ps cs r ↔
      ∃ pr ∈ ps, ∃ dx ∈ rangeIcc (-r) r, ∃ dy ∈ rangeIcc (-r) r,
        c = ⟨cellIndex pr.2.x cs + dx, cellIndex pr.2.y cs + dy, 0⟩ := by
  unfold specChebyshevUnion
  simp only [List.mem_flatMap, List.mem_map]
  constructor
  · rintro ⟨pr, hpr, dx, hdx, dy, hdy, rfl⟩
    exact ⟨pr, hpr, dx, hdx, dy, hdy, rfl⟩
  · rintro ⟨pr, hpr, dx, hdx, dy, hdy, rfl⟩
    exact ⟨pr, hpr, dx, hdx, dy, hdy, rfl⟩

theorem compute_active_cells_eq_spec (svc : WorldService) (c : CellCoord) :
    c ∈ compute_active_cells svc ↔
      c ∈ specChebyshevUnion svc.participant_positions svc.config.cell_size
        svc.config.activation_radius := by
  rw [mem_compute_active_cells, mem_specChebyshevUnion]

/-! ### State threading through the reconciliation loops -/

theorem mem_filter_ne (l : List CellCoord) (coord a : CellCoord) :
    a ∈ l.filter (fun c => c ≠ coord) ↔ a ∈ l ∧ a ≠ coord := by
  simp [List.mem_filter]

theorem mem_filter_not_mem (l L : List CellCoord) (a : CellCoord) :
    a ∈ l.filter (fun c => ¬(c ∈ L)) ↔ a ∈ l ∧ a ∉ L := by
  simp [List.mem_filter]

theorem deactivate_cell_state (phys : PhysicsRegistry) (svc : WorldService)
    (coord : CellCoord) :
    (deactivate_cell phys svc coord).1.active_cells
        = svc.active_cells.filter (fun c => c ≠ coord) ∧
    (deactivate_cell phys svc coord).1.participant_positions
        = svc.participant_positions ∧
    (deactivate_cell phys svc coord).1.config = svc.config ∧
    (deactivate_cell phys svc coord).1.world = svc.world ∧
    (deactivate_cell phys svc coord).1.tick_count = svc.tick_count ∧
    (deactivate_cell phys svc coord).2 = ⟨cell_chunk_id coord⟩ :=
  ⟨rfl, rfl, rfl, rfl, rfl, rfl⟩

theorem deactivateLoop_state (phys : PhysicsRegistry) :
    ∀ (L : List CellCoord) (svc : WorldService),
      (∀ a, a ∈ (deactivateLoop phys svc L).1.active_cells ↔
        a ∈ svc.active_cells ∧ a ∉ L) ∧
      (deactivateLoop phys svc L).1.participant_positions
        = svc.participant_positions ∧
      (deactivateLoop phys svc L).1.config = svc.config ∧
      (deactivateLoop phys svc L).1.world = svc.world ∧
      (deactivateLoop phys svc L).1.tick_count = svc.tick_count := by
  intro L
  induction L with
  | nil => intro svc; simp [deactivateLoop]
  | cons c cs ih =>
    intro svc
    obtain ⟨ihm, ihp, ihc, ihw, iht⟩ := ih (deactivate_cell phys svc c).1
    refine ⟨?_, ?_, ?_, ?_, ?_⟩
    · intro a
      show a ∈ (deactivateLoop phys (deactivate_cell phys svc c).1 cs).1.active_cells ↔ _
      rw [ihm a, (deactivate_cell_state phys svc c).1, mem_filter_ne]
      simp only [List.mem_cons]
      tauto
    · exact ihp.trans (deactivate_cell_state phys svc c).2.1
    · exact ihc.trans (deactivate_cell_state phys svc c).2.2.1
    · exact ihw.trans (deactivate_cell_state phys svc c).2.2.2.1
    · exact iht.trans (deactivate_cell_state phys svc c).2.2.2.2.1

/-- The event-prepending step of the activation loop, as a named function so
that loop equations stay non-dependent. -/
def consOpt (ev? : Option ChunkActivated) (evs : List ChunkActivated) :
    List ChunkActivated :=
  match ev? with
  | some ev => ev :: evs
  | none => evs

theorem activateLoop_cons_error_head (phys : PhysicsRegistry) (svc : WorldService)
    (c : CellCoord) (cs : List CellCoord) (e : String)
    (hac : activate_cell phys svc c = .error e) :
    activateLoop phys svc (c :: cs) = .error e := by
  unfold activateLoop
  rw [hac]

theorem activateLoop_cons_ok_head (phys : PhysicsRegistry) (svc : WorldService)
    (c : CellCoord) (cs : List CellCoord) (svc1 : WorldService)
    (ev? : Option ChunkActivated) (hac : activate_cell phys svc c = .ok (svc1, ev?)) :
    activateLoop phys svc (c :: cs) =
      match activateLoop phys svc1 cs with
      | .error e => .error e
      | .ok (svc2, evs) => .ok (svc2, consOpt ev? evs) := by
  conv_lhs => unfold activateLoop
  rw [hac]
  rfl

theorem activate_cell_ok_state (phys : PhysicsRegistry) (svc : WorldService)
    (coord : CellCoord) (svc' : WorldService) (ev? : Option ChunkActivated)
    (h : activate_cell phys svc coord = .ok (svc', ev?)) :
    (∀ a, a ∈ svc'.active_cells ↔ a = coord ∨ a ∈ svc.active_cells) ∧
    svc'.participant_positions = svc.participant_positions ∧
    svc'.config = svc.config ∧
    svc'.world = svc.world ∧
    svc'.tick_count = svc.tick_count := by
  unfold activate_cell at h
  by_cases hmem : coord ∈ svc.active_cells
  · rw [if_pos hmem] at h
    obtain ⟨rfl, rfl⟩ : svc = svc' ∧ none = ev? := by
      simpa only [Except.ok.injEq, Prod.mk.injEq] using h
    refine ⟨?_, rfl, rfl, rfl, rfl⟩
    intro a
    constructor
    · exact Or.inr
    · rintro (rfl | ha)
      · exact hmem
      · exact ha
  · rw [if_neg hmem] at h
    cases hsim : phys.default_simulation with
    | none =>
      rw [hsim] at h
      exact Except.noConfusion h
    | some sim =>
      rw [hsim] at h
      cases hhm : svc.world.heightmap with
      | some hm =>
        rw [hhm] at h
        by_cases hreg : sim.register_ok (terrain_body_id coord) = true
        · simp only [hreg, eq_self_iff_true, if_true, Except.ok.injEq,
            Prod.mk.injEq] at h
          obtain ⟨hsvc, -⟩ := h
          subst hsvc
          refine ⟨?_, rfl, rfl, rfl, rfl⟩
          intro a
          exact mem_insertCell coord a _
        · have hregf : sim.register_ok (terrain_body_id coord) = false := by
            simpa using hreg
          simp only [hregf, Bool.false_eq_true, if_false] at h
          exact Except.noConfusion h
      | none =>
        rw [hhm] at h
        simp only [Except.ok.injEq, Prod.mk.injEq] at h
        obtain ⟨hsvc, -⟩ := h
        subst hsvc
        refine ⟨?_, rfl, rfl, rfl, rfl⟩
        intro a
        exact mem_insertCell coord a _

theorem activateLoop_ok_state (phys : PhysicsRegistry) :
    ∀ (L : List CellCoord) (svc svc' : WorldService) (evs : List ChunkActivated),
      activateLoop phys svc L = .ok (svc', evs) →
      (∀ a, a ∈ svc'.active_cells ↔ a ∈ svc.active_cells ∨ a ∈ L) ∧
      svc'.participant_positions = svc.participant_positions ∧
      svc'.config = svc.config ∧
      svc'.world = svc.world ∧
      svc'.tick_count = svc.tick_count := by
  intro L
  induction L with
  | nil =>
    intro svc svc' evs h
    obtain ⟨rfl, -⟩ : svc = svc' ∧ [] = evs := by
      simpa only [activateLoop, Except.ok.injEq, Prod.mk.injEq] using h
    simp
  | cons c cs ih =>
    intro svc svc' evs h
    cases hac : activate_cell phys svc c with
    | error e =>
      rw [activateLoop_cons_error_head phys svc c cs e hac] at h
      exact Except.noConfusion h
    | ok p =>
      obtain ⟨p1, p2⟩ := p
      rw [activateLoop_cons_ok_head phys svc c cs p1 p2 hac] at h
      cases hal : activateLoop phys p1 cs with
      | error e =>
        rw [hal] at h
        exact Except.noConfusion h
      | ok q =>
        obtain ⟨q1, q2⟩ := q
        rw [hal] at h
        have h2 : (Except.ok (q1, consOpt p2 q2) :
            Except String (WorldService × List ChunkActivated)) =
            Except.ok (svc', evs) := h
        obtain ⟨rfl, -⟩ : q1 = svc' ∧ _ := by
          simpa only [Except.ok.injEq, Prod.mk.injEq] using h2
        obtain ⟨h1m, h1p, h1c, h1w, h1t⟩ :=
          activate_cell_ok_state phys svc c p1 p2 hac
        obtain ⟨h2m, h2p, h2c, h2w, h2t⟩ := ih p1 q1 q2 hal
        refine ⟨?_, h2p.trans h1p, h2c.trans h1c, h2w.trans h1w, h2t.trans h1t⟩
        intro a
        rw [h2m a, h1m a]
        simp only [List.mem_cons]
        tauto

theorem activate_cell_no_sim (phys : PhysicsRegistry) (svc : WorldService)
    (coord : CellCoord) (hsim : phys.default_simulation = none)
    (hmem : coord ∉ svc.active_cells) :
    activate_cell phys svc coord = .error "No default physics simulation" := by
  unfold activate_cell
  rw [if_neg hmem, hsim]

theorem activateLoop_no_sim_error (phys : PhysicsRegistry)
    (hsim : phys.default_simulation = none) :
    ∀ (L : List CellCoord) (svc : WorldService),
      (∃ c ∈ L, c ∉ svc.active_cells) →
      activateLoop phys svc L = .error "No default physics simulation" := by
  intro L
  induction L with
  | nil => rintro svc ⟨c, hc, -⟩; simp at hc
  | cons c cs ih =>
    rintro svc ⟨c0, hc0, hc0n⟩
    by_cases hc : c ∈ svc.active_cells
    · have hac : activate_cell phys svc c = .ok (svc, none) := by
        unfold activate_cell
        rw [if_pos hc]
      have hex : ∃ x ∈ cs, x ∉ svc.active_cells := by
        rcases List.mem_cons.mp hc0 with rfl | hmem
        · exact absurd hc hc0n
        · exact ⟨c0, hmem, hc0n⟩
      rw [activateLoop_cons_ok_head phys svc c cs svc none hac, ih svc hex]
    · rw [activateLoop_cons_error_head phys svc c cs _
        (activate_cell_no_sim phys svc c hsim hc)]

/-! ### The tick theorems -/

theorem tick_eq (phys : PhysicsRegistry) (svc : WorldService) :
    tick phys svc =
      match activateLoop phys (tick_svc2 phys svc) (tick_toActivate phys svc) with
      | .error e => .error e
      | .ok (svc3, activated) =>
        .ok (svc3, ⟨svc3.tick_count, activated, (tick_dr phys svc).2,
          collect_entity_transforms svc3⟩) := rfl

theorem tick_ok_active_cells (phys : PhysicsRegistry) (svc svc' : WorldService)
    (ev : TickEvents) (h : tick phys svc = .ok (svc', ev)) :
    ∀ a, a ∈ svc'.active_cells ↔
      a ∈ specChebyshevUnion svc'.participant_positions svc'.config.cell_size
        svc'.config.activation_radius := by
  rw [tick_eq] at h
  cases hal : activateLoop phys (tick_svc2 phys svc) (tick_toActivate phys svc) with
  | error e =>
    rw [hal] at h
    exact Except.noConfusion h
  | ok p =>
    obtain ⟨svc3, activated⟩ := p
    rw [hal] at h
    have h2 : (Except.ok (svc3, (⟨svc3.tick_count, activated, (tick_dr phys svc).2,
        collect_entity_transforms svc3⟩ : TickEvents)) :
        Except String (WorldService × TickEvents)) = Except.ok (svc', ev) := h
    obtain ⟨rfl, -⟩ : svc3 = svc' ∧ _ := by
      simpa only [Except.ok.injEq, Prod.mk.injEq] using h2
    obtain ⟨ham, hap, hacf, -, -⟩ :=
      activateLoop_ok_state phys (tick_toActivate phys svc)
        (tick_svc2 phys svc) svc3 activated hal
    obtain ⟨hdm, hdp, hdc, -, -⟩ :=
      deactivateLoop_state phys
        ((tick_svc1 phys svc).active_cells.filter
          fun c => ¬(c ∈ tick_desired phys svc))
        (tick_svc1 phys svc)
    have hpos : svc3.participant_positions
        = (tick_svc1 phys svc).participant_positions := hap.trans hdp
    have hcfg : svc3.config = (tick_svc1 phys svc).config := hacf.trans hdc
    intro a
    rw [hpos, hcfg, ← compute_active_cells_eq_spec (tick_svc1 phys svc) a]
    show a ∈ svc3.active_cells ↔ a ∈ tick_desired phys svc
    have hdm2 : a ∈ (tick_svc2 phys svc).active_cells ↔
        a ∈ (tick_svc1 phys svc).active_cells ∧
          ¬a ∈ (tick_svc1 phys svc).active_cells.filter
            (fun c => ¬(c ∈ tick_desired phys svc)) := hdm a
    have hta : a ∈ tick_toActivate phys svc ↔
        a ∈ tick_desired phys svc ∧ ¬a ∈ (tick_svc2 phys svc).active_cells :=
      mem_filter_not_mem _ _ a
    have htd : a ∈ (tick_svc1 phys svc).active_cells.filter
          (fun c => ¬(c ∈ tick_desired phys svc)) ↔
        a ∈ (tick_svc1 phys svc).active_cells ∧ ¬a ∈ tick_desired phys svc :=
      mem_filter_not_mem _ _ a
    rw [ham a, hdm2, hta, hdm2, htd]
    tauto

/-- **C1.** For every sequence of `register_participant` / `unregister_participant`
calls applied to a fresh service, followed by a `tick` that returns success, the
engine's `active_cells` afterwards holds exactly the union, over the entries
`(id, p)` of `participant_positions`, of the cells
`(floor(p.x/cell_size)+dx, floor(p.y/cell_size)+dy, 0)` for
`dx, dy ∈ [-activation_radius, activation_radius]`. -/
theorem tick_active_cells_spec (cfg : WorldServiceConfig) (world : World)
    (phys : PhysicsRegistry) (ops : List POp)
    (h : tickOk phys (applyOps (WorldService.new cfg world) ops) = true) :
    ∀ a,
      a ∈ (tickState phys (applyOps (WorldService.new cfg world) ops)).active_cells ↔
      a ∈ specChebyshevUnion
        (tickState phys (applyOps (WorldService.new cfg world) ops)).participant_positions
        (tickState phys (applyOps (WorldService.new cfg world) ops)).config.cell_size
        (tickState phys (applyOps (WorldService.new cfg world) ops)).config.activation_radius := by
  cases htick : tick phys (applyOps (WorldService.new cfg world) ops) with
  | error e =>
    simp only [tickOk, htick] at h
    exact Bool.noConfusion h
  | ok r =>
    obtain ⟨svc', ev⟩ := r
    have hstate : tickState phys (applyOps (WorldService.new cfg world) ops) = svc' := by
      simp only [tickState, htick]
    rw [hstate]
    exact tick_ok_active_cells phys _ svc' ev htick

def c1Phys : PhysicsRegistry := ⟨some ⟨fun _ => none, fun _ => true, fun _ => true⟩⟩

def c1Svc : WorldService :=
  applyOps (WorldService.new ⟨1, 0, 42, 0, 0⟩ ⟨none⟩) [.register "alice" ⟨0, 0, 0⟩]

unseal Rat.add Rat.mul Rat.inv Rat.sub in
theorem tick_active_cells_spec_witness :
    tickOk c1Phys c1Svc = true ∧
    ((⟨0, 0, 0⟩ : CellCoord) ∈ (tickState c1Phys c1Svc).active_cells ↔
      (⟨0, 0, 0⟩ : CellCoord) ∈ specChebyshevUnion
        (tickState c1Phys c1Svc).participant_positions
        (tickState c1Phys c1Svc).config.cell_size
        (tickState c1Phys c1Svc).config.activation_radius) :=
  ⟨by decide,
   tick_active_cells_spec ⟨1, 0, 42, 0, 0⟩ ⟨none⟩ c1Phys
     [.register "alice" ⟨0, 0, 0⟩] (by decide) ⟨0, 0, 0⟩⟩

/-- **C4.** With no default physics simulation, activating a not-yet-active cell
fails with the "No default physics simulation" error (so no cell is inserted and
no event pair is produced), and a `tick` whose activation work list is nonempty
returns that failure; whereas `deactivate_cell` — for every physics registry,
including one whose unregister calls fail — still removes the cell from
`active_cells` and still produces the `ChunkDeactivated` event. -/
theorem tick_no_sim_and_deactivation_semantics (phys : PhysicsRegistry)
    (svc : WorldService) (coord : CellCoord) :
    (phys.default_simulation = none →
      (coord ∉ svc.active_cells →
        activate_cell phys svc coord = .error "No default physics simulation") ∧
      (tick_toActivate phys svc ≠ [] →
        tick phys svc = .error "No default physics simulation")) ∧
    ((deactivate_cell phys svc coord).1.active_cells
        = svc.active_cells.filter (fun c => c ≠ coord) ∧
      coord ∉ (deactivate_cell phys svc coord).1.active_cells ∧
      (deactivate_cell phys svc coord).2 = ⟨cell_chunk_id coord⟩) := by
  refine ⟨fun hsim =>
    ⟨fun hmem => activate_cell_no_sim phys svc coord hsim hmem, fun hne => ?_⟩,
    rfl, ?_, rfl⟩
  · obtain ⟨c, hc⟩ := List.exists_mem_of_ne_nil _ hne
    have hcm : c ∈ tick_desired phys svc ∧ ¬c ∈ (tick_svc2 phys svc).active_cells :=
      (mem_filter_not_mem _ _ c).mp hc
    have hloop := activateLoop_no_sim_error phys hsim (tick_toActivate phys svc)
      (tick_svc2 phys svc) ⟨c, hc, hcm.2⟩
    rw [tick_eq, hloop]
  · intro hmem
    have hm2 := (mem_filter_ne svc.active_cells coord coord).mp
      (by rw [← (deactivate_cell_state phys svc coord).1]; exact hmem)
    exact hm2.2 rfl

def c4Svc : WorldService :=
  { config := ⟨1, 0, 42, 0, 0⟩, active_cells := [⟨5, 5, 0⟩], terrain_bodies := [],
    cell_objects := [], participant_positions := [("alice", ⟨0, 0, 0⟩)],
    world := ⟨none⟩, tick_count := 0 }

def c4PhysFail : PhysicsRegistry :=
  ⟨some ⟨fun _ => none, fun _ => true, fun _ => false⟩⟩

unseal Rat.add Rat.mul Rat.inv Rat.sub in
theorem tick_no_sim_and_deactivation_semantics_witness :
    (⟨0, 0, 0⟩ : CellCoord) ∉ c4Svc.active_cells ∧
    tick_toActivate ⟨none⟩ c4Svc ≠ [] ∧
    activate_cell ⟨none⟩ c4Svc ⟨0, 0, 0⟩ = .error "No default physics simulation" ∧
    tick ⟨none⟩ c4Svc = .error "No default physics simulation" ∧
    (deactivate_cell c4PhysFail c4Svc ⟨5, 5, 0⟩).1.active_cells
      = c4Svc.active_cells.filter (fun c => c ≠ ⟨5, 5, 0⟩) ∧
    (⟨5, 5, 0⟩ : CellCoord) ∉ (deactivate_cell c4PhysFail c4Svc ⟨5, 5, 0⟩).1.active_cells ∧
    (deactivate_cell c4PhysFail c4Svc ⟨5, 5, 0⟩).2 = ⟨cell_chunk_id ⟨5, 5, 0⟩⟩ :=
  ⟨by decide, by decide,
   ((tick_no_sim_and_deactivation_semantics ⟨none⟩ c4Svc ⟨0, 0, 0⟩).1 rfl).1 (by decide),
   ((tick_no_sim_and_deactivation_semantics ⟨none⟩ c4Svc ⟨0, 0, 0⟩).1 rfl).2 (by decide),
   (tick_no_sim_and_deactivation_semantics c4PhysFail c4Svc ⟨5, 5, 0⟩).2.1,
   (tick_no_sim_and_deactivation_semantics c4PhysFail c4Svc ⟨5, 5, 0⟩).2.2.1,
   (tick_no_sim_and_deactivation_semantics c4PhysFail c4Svc ⟨5, 5, 0⟩).2.2.2⟩

end JanetWorld
